import Mathlib

set_option maxHeartbeats 1000000

/-
Shallow embedding of the xtask schema translator of the ls-types repository
(src/xtask/src/{schema,config,target,translate}.rs).

Modelling conventions:
  - SmolStr is modelled as String.
  - BTreeMap is modelled as an association list with unique keys; removal and
    lookup act on the first matching entry.  BTreeSet is modelled as a sorted
    duplicate-free list built by insertSorted.
  - A Rust panic (panic!, todo!, unwrap on None) is the explicit outcome
    PRes.panicked / TOut.panicked.  An eyre error is TOut.fatal carrying a
    cause and the list of context frames added by wrap_err_with, innermost
    first.  Messages produced by Debug formatting are abstracted into the
    ErrCause tag that identifies the bail! site.
  - eprintln diagnostics are modelled as a list of Warning events.
-/

namespace Xtask

/-- Model of target.rs TypeRef: an opaque textual type handle. -/
structure TypeRef where
  s : String
deriving DecidableEq, Repr

/-- Model of TypeRef::new. -/
def TypeRef.new (name : String) : TypeRef := ⟨name⟩

/-- Model of TypeRef::as_str. -/
def TypeRef.as_str (t : TypeRef) : String := t.s

/-- Model of TypeRef::new_generics: renders Name and the comma separated
generic arguments between angle brackets. -/
def TypeRef.new_generics (name : String) (generics : List TypeRef) : TypeRef :=
  ⟨name ++ "<" ++ String.intercalate "," (generics.map (fun t => t.s)) ++ ">"⟩

/-- Model of TypeRef::new_tuple: renders the comma separated elements between
parentheses. -/
def TypeRef.new_tuple (elements : List TypeRef) : TypeRef :=
  ⟨"(" ++ String.intercalate "," (elements.map (fun t => t.s)) ++ ")"⟩

/-- Model of schema.rs BaseType. -/
inductive BaseType where
  | uri
  | documentUri
  | integer
  | uinteger
  | decimal
  | regExp
  | string
  | boolean
  | null
deriving DecidableEq, Repr

mutual

/-- Model of schema.rs Type (tagged union, the recursive backbone). -/
inductive SchemaType where
  | base (name : BaseType)
  | reference (name : String)
  | array (element : SchemaType)
  | mapT (key : SchemaType) (value : SchemaType)
  | or (items : List SchemaType)
  | tuple (items : List SchemaType)
  | literal (value : StructureLiteral)
  | stringLiteral (value : String)
  | integerLiteral (value : Int)
  | booleanLiteral (value : Bool)

/-- Model of schema.rs StructureLiteral. -/
inductive StructureLiteral where
  | mk (properties : List Property) (documentation : Option String)
      (since : Option String) (sinceTags : Option (List String))
      (proposed : Bool) (deprecated : Option String)

/-- Model of schema.rs Property. -/
inductive Property where
  | mk (name : String) (type_ : SchemaType) (documentation : Option String)
      (optional : Option Bool) (since : Option String)
      (sinceTags : Option (List String)) (proposed : Option Bool)
      (deprecated : Option String)

end

/-- Projection: the properties list of a StructureLiteral. -/
def StructureLiteral.properties : StructureLiteral → List Property
  | .mk ps _ _ _ _ _ => ps

/-- Projection: the name of a Property. -/
def Property.name : Property → String
  | .mk n _ _ _ _ _ _ _ => n

/-- Projection: the type of a Property. -/
def Property.type_ : Property → SchemaType
  | .mk _ t _ _ _ _ _ _ => t

/-- Projection: the documentation of a Property. -/
def Property.documentation : Property → Option String
  | .mk _ _ d _ _ _ _ _ => d

/-- Projection: the since field of a Property. -/
def Property.since : Property → Option String
  | .mk _ _ _ _ s _ _ _ => s

/-- Projection: the deprecated field of a Property. -/
def Property.deprecated : Property → Option String
  | .mk _ _ _ _ _ _ _ d => d

/-- Outcome of a pure Rust computation that may panic. -/
inductive PRes (α : Type) where
  | panicked
  | ok (a : α)
deriving DecidableEq, Repr

mutual

/-- Model of schema.rs Type::into_reference: collapse a Type into a single
TypeRef without invoking the full translator.  Reference and the mapped Base
primitives succeed, Array succeeds recursively, Tuple maps every element
through into_reference().unwrap() (panicking when an element yields None);
all other shapes yield None. -/
def intoReference : SchemaType → PRes (Option TypeRef)
  | .reference name => .ok (some (TypeRef.new name))
  | .base b =>
    match b with
    | .uri => .ok (some (TypeRef.new "Uri"))
    | .documentUri => .ok (some (TypeRef.new "DocumentUri"))
    | .integer => .ok (some (TypeRef.new "i64"))
    | .uinteger => .ok (some (TypeRef.new "u32"))
    | .string => .ok (some (TypeRef.new "String"))
    | .boolean => .ok (some (TypeRef.new "bool"))
    | _ => .ok none
  | .array element =>
    match intoReference element with
    | .panicked => .panicked
    | .ok none => .ok none
    | .ok (some inner) => .ok (some (TypeRef.new_generics "Vec" [inner]))
  | .tuple items =>
    match unwrapRefs items with
    | .panicked => .panicked
    | .ok rs => .ok (some (TypeRef.new_tuple rs))
  | _ => .ok none
termination_by t => sizeOf t

/-- The Tuple branch of into_reference: map each element through
into_reference().unwrap(), left to right. -/
def unwrapRefs : List SchemaType → PRes (List TypeRef)
  | [] => .ok []
  | t :: ts =>
    match intoReference t with
    | .panicked => .panicked
    | .ok none => .panicked
    | .ok (some r) =>
      match unwrapRefs ts with
      | .panicked => .panicked
      | .ok rs => .ok (r :: rs)
termination_by ts => sizeOf ts

end

/-- Model of config.rs CodegenOption. -/
inductive CodegenOption where
  | generate (b : Bool)
  | checksum (c : String)
deriving DecidableEq, Repr

/-- Model of config.rs Config.  The BTreeMap fields are association lists. -/
structure Config where
  version : String
  anonMappings : List (String × String)
  structs : List (String × CodegenOption)
  enums : List (String × CodegenOption)
deriving DecidableEq, Repr

/-- Lookup of the first entry with the given key (model of BTreeMap::get). -/
def mapFind {α : Type} (m : List (String × α)) (k : String) : Option α :=
  match m with
  | [] => none
  | (k2, v) :: rest => if k2 = k then some v else mapFind rest k

/-- Removal of the first entry with the given key, returning the removed
value (model of BTreeMap::remove). -/
def mapRemove {α : Type} (m : List (String × α)) (k : String) :
    Option α × List (String × α) :=
  match m with
  | [] => (none, [])
  | (k2, v) :: rest =>
    if k2 = k then (some v, rest)
    else
      let r := mapRemove rest k
      (r.1, (k2, v) :: r.2)

/-- Ordered duplicate-free insertion (model of BTreeSet::insert). -/
def insertSorted (x : String) : List String → List String
  | [] => [x]
  | y :: ys =>
    if x < y then x :: y :: ys
    else if x = y then y :: ys
    else y :: insertSorted x ys

/-- The composite key of config.rs lookup_anon: the textual references joined
with a vertical bar in declaration order. -/
def mkAnonKey (rs : List TypeRef) : String :=
  String.intercalate "|" (rs.map (fun r => r.s))

/-- The collect step of config.rs lookup_anon: reduce each arm through
into_reference, short circuiting at the first arm that yields None (a panic
in an arm reached before that propagates). -/
def collectRefs : List SchemaType → PRes (Option (List TypeRef))
  | [] => .ok (some [])
  | t :: ts =>
    match intoReference t with
    | .panicked => .panicked
    | .ok none => .ok none
    | .ok (some r) =>
      match collectRefs ts with
      | .panicked => .panicked
      | .ok none => .ok none
      | .ok (some rs) => .ok (some (r :: rs))

/-- Model of config.rs Config::lookup_anon. -/
def Config.lookup_anon (cfg : Config) (items : List SchemaType) :
    PRes (Except (Option String) TypeRef) :=
  match collectRefs items with
  | .panicked => .panicked
  | .ok none => .ok (.error none)
  | .ok (some rs) =>
    let key := mkAnonKey rs
    match mapFind cfg.anonMappings key with
    | some v => .ok (.ok (TypeRef.new v))
    | none => .ok (.error (some key))

/-- Tag identifying the site of a bail! in translate.rs (the Debug formatted
payload of the message is abstracted away). -/
inductive ErrCause where
  | tuplesUnsupported
  | literalUnsupported
  | integerLiteralUnsupported
  | booleanLiteralUnsupported
  | invalidAnonItems
  | invalidVersion (v : String)
  | intEnumsUnsupported
  | uintEnumsUnsupported
deriving DecidableEq, Repr

/-- Outcome of a translator computation: a panic, an eyre error (cause plus
wrap_err_with context frames, innermost first), or a value. -/
inductive TOut (α : Type) where
  | panicked
  | fatal (cause : ErrCause) (ctx : List String)
  | ok (a : α)
deriving DecidableEq, Repr

/-- Model of target.rs Version. -/
inductive Version where
  | unknown
  | v3_2_0
  | v3_6_0
  | v3_8_0
  | v3_10_0
  | v3_12_0
  | v3_13_0
  | v3_14_0
  | v3_15_0
  | v3_16_0
  | v3_17_0
  | v3_18_0
deriving DecidableEq, Repr

/-- Model of target.rs Version::parse: strip a leading version word, keep the
part before the first space, strip a trailing dot, then match the known
version strings; None parses to Unknown and an unknown string is an error
carrying that string. -/
def Version.parse (s : Option String) : Except String Version :=
  match s.map (fun s0 =>
    let s1 := if "version ".isPrefixOf s0 then s0.drop 8 else s0
    let s2 := (s1.splitOn " ").headD s1
    if s2.endsWith "." then s2.dropRight 1 else s2) with
  | none => .ok .unknown
  | some "3.2.0" => .ok .v3_2_0
  | some "3.6.0" => .ok .v3_6_0
  | some "3.8.0" => .ok .v3_8_0
  | some "3.10.0" => .ok .v3_10_0
  | some "3.12.0" => .ok .v3_12_0
  | some "3.13.0" => .ok .v3_13_0
  | some "3.14.0" => .ok .v3_14_0
  | some "3.15.0" => .ok .v3_15_0
  | some "3.16.0" => .ok .v3_16_0
  | some "3.16" => .ok .v3_17_0
  | some "3.17.0" => .ok .v3_17_0
  | some "3.17" => .ok .v3_17_0
  | some "3.18.0" => .ok .v3_18_0
  | some v => .error v

/-- Model of target.rs StructFields. -/
structure TargetField where
  name : String
  ty : TypeRef
  doc : Option String
  since : Version
  deprecated : Option String
deriving DecidableEq, Repr

/-- Model of target.rs Struct. -/
structure TargetStruct where
  name : String
  extends_ : List String
  fields : List TargetField
  doc : Option String
  deprecated : Option String
  since : Version
deriving DecidableEq, Repr

/-- Model of target.rs EnumVariants. -/
structure TargetEnumVariant where
  name : String
  doc : Option String
  since : Version
deriving DecidableEq, Repr

/-- Model of target.rs Enum. -/
structure TargetEnum where
  name : String
  variants : List TargetEnumVariant
  doc : Option String
  deprecated : Option String
  since : Version
deriving DecidableEq, Repr

/-- Model of target.rs Item. -/
inductive Item where
  | struct (s : TargetStruct)
  | enum (e : TargetEnum)
  | traitImpl (interface : String) (implementor : String)
      (assocTypes : List (String × TypeRef)) (assocConst : List (String × String))
deriving DecidableEq, Repr

/-- Mutable state of the Translator of translate.rs: the consumed config and
the three diagnostic sets. -/
structure TransSt where
  config : Config
  structsMissing : List String
  enumsMissing : List String
  anonMissing : List String
deriving DecidableEq, Repr

/-- Holds when a Type is an inline literal structure with zero properties
(the degenerate empty object marker dropped by the union filter). -/
def isEmptyLit : SchemaType → Bool
  | .literal v => v.properties.isEmpty
  | _ => false

/-- The anonymous union fallback branch of Type::translate: consult
lookup_anon; a hit yields that TypeRef, Err(None) is a hard error, and
Err(Some(key)) records the key into anon_missing and yields the placeholder
TypeRef. -/
def orFallback (items : List SchemaType) (st : TransSt) :
    TOut (Option TypeRef × TransSt) :=
  match st.config.lookup_anon items with
  | .panicked => .panicked
  | .ok (.ok r) => .ok (some r, st)
  | .ok (.error none) => .fatal .invalidAnonItems []
  | .ok (.error (some key)) =>
    .ok (some (TypeRef.new "todo!()"),
      { st with anonMissing := insertSorted key st.anonMissing })

/-- Model of translate.rs Type::translate (impl TranslateSchema for
schema::Type): returns None for a silently dropped type, threads the
translator state, and surfaces unsupported shapes as panics or errors exactly
as the source does. -/
def translateType (ty : SchemaType) (st : TransSt) :
    TOut (Option TypeRef × TransSt) :=
  match ty with
  | .base b =>
    match b with
    | .uri => .ok (some (TypeRef.new "crate::Uri"), st)
    | .documentUri => .ok (some (TypeRef.new "crate::DocumentUri"), st)
    | .integer => .ok (some (TypeRef.new "i64"), st)
    | .uinteger => .ok (some (TypeRef.new "u32"), st)
    | .decimal => .ok (some (TypeRef.new "f32"), st)
    | .regExp => .panicked
    | .string => .ok (some (TypeRef.new "String"), st)
    | .boolean => .ok (some (TypeRef.new "bool"), st)
    | .null => .panicked
  | .array element =>
    match translateType element st with
    | .panicked => .panicked
    | .fatal c cs => .fatal c cs
    | .ok (none, st1) => .ok (none, st1)
    | .ok (some el, st1) => .ok (some (TypeRef.new_generics "Vec" [el]), st1)
  | .reference name => .ok (some (TypeRef.new name), st)
  | .mapT key value =>
    match translateType key st with
    | .panicked => .panicked
    | .fatal c cs => .fatal c cs
    | .ok (none, st1) => .ok (none, st1)
    | .ok (some k, st1) =>
      match translateType value st1 with
      | .panicked => .panicked
      | .fatal c cs => .fatal c cs
      | .ok (none, st2) => .ok (none, st2)
      | .ok (some v, st2) =>
        .ok (some (TypeRef.new_generics "std::collections::HashMap" [k, v]), st2)
  | .or items =>
    match h : items.filter (fun it => !(isEmptyLit it)) with
    | [ty1] => translateType ty1 st
    | [ty1, .base .null] =>
      match translateType ty1 st with
      | .panicked => .panicked
      | .fatal c cs => .fatal c cs
      | .ok (none, st1) => .ok (none, st1)
      | .ok (some inner, st1) =>
        .ok (some (TypeRef.new_generics "Option" [inner]), st1)
    | _ => orFallback (items.filter (fun it => !(isEmptyLit it))) st
  | .tuple _ => .fatal .tuplesUnsupported []
  | .literal _ => .fatal .literalUnsupported []
  | .stringLiteral _ => .ok (none, st)
  | .integerLiteral _ => .fatal .integerLiteralUnsupported []
  | .booleanLiteral _ => .fatal .booleanLiteralUnsupported []
termination_by sizeOf ty
decreasing_by
  all_goals simp_wf
  all_goals first
  | omega
  | (have hm : ty1 ∈ items.filter (fun it => !(isEmptyLit it)) := by
       rw [h]; exact List.mem_cons_self _ _
     have hm2 := List.sizeOf_lt_of_mem (List.mem_of_mem_filter hm)
     omega)

/-- Model of schema.rs Structure.  The extends field of the source is named
extends_ here because extends is a Lean keyword. -/
structure Structure where
  name : String
  properties : List Property
  extends_ : List SchemaType
  mixins : List SchemaType
  documentation : Option String
  since : Option String
  sinceTags : Option (List String)
  proposed : Option Bool
  deprecated : Option String

/-- Model of the scalar payloads of serde_json::Value carried by enumeration
entries. -/
inductive JsonValue where
  | str (s : String)
  | int (n : Int)
  | bool (b : Bool)
deriving DecidableEq, Repr

/-- Model of schema.rs EnumerationTypeKind. -/
inductive EnumerationTypeKind where
  | string
  | integer
  | uinteger
deriving DecidableEq, Repr

/-- Model of schema.rs EnumerationType. -/
inductive EnumerationType where
  | base (name : EnumerationTypeKind)
deriving DecidableEq, Repr

/-- Model of schema.rs EnumerationEntry. -/
structure EnumerationEntry where
  name : String
  value : JsonValue
  documentation : Option String
  since : Option String
  proposed : Bool
deriving DecidableEq, Repr

/-- Model of schema.rs Enumeration. -/
structure Enumeration where
  name : String
  type_ : EnumerationType
  values : List EnumerationEntry
  supportsCustomValues : Bool
  documentation : Option String
  since : Option String
  proposed : Bool
  deprecated : Option String

/-- Model of schema.rs MetaModel restricted to the fields the translator
reads: its translate impl destructures meta_data, requests, notifications and
type_aliases but only walks structures and enumerations, so only those two
lists are modelled. -/
structure MetaModel where
  structures : List Structure
  enumerations : List Enumeration

/-- The property loop of Structure::translate: each property type is
translated with the property name attached as error context, a None type
drops the field silently, and the since field is parsed into a Version. -/
def translateProps : List Property → TransSt → TOut (List TargetField × TransSt)
  | [], st => .ok ([], st)
  | p :: ps, st =>
    match translateType p.type_ st with
    | .panicked => .panicked
    | .fatal c cs => .fatal c (cs ++ ["while translating property: " ++ p.name])
    | .ok (none, st1) => translateProps ps st1
    | .ok (some ty, st1) =>
      match Version.parse p.since with
      | .error v => .fatal (.invalidVersion v) []
      | .ok ver =>
        match translateProps ps st1 with
        | .panicked => .panicked
        | .fatal c cs => .fatal c cs
        | .ok (fs, st2) =>
          .ok ({ name := p.name, ty := ty, doc := p.documentation,
                 since := ver, deprecated := p.deprecated } :: fs, st2)

/-- Model of translate.rs Structure::translate: reduce extends and mixins
through into_reference().unwrap(), translate the properties, then build the
target struct. -/
def translateStructure (s : Structure) (st : TransSt) :
    TOut (TargetStruct × TransSt) :=
  match unwrapRefs (s.extends_ ++ s.mixins) with
  | .panicked => .panicked
  | .ok refs =>
    match translateProps s.properties st with
    | .panicked => .panicked
    | .fatal c cs => .fatal c cs
    | .ok (fs, st1) =>
      match Version.parse s.since with
      | .error v => .fatal (.invalidVersion v) []
      | .ok ver =>
        .ok ({ name := s.name, extends_ := refs.map (fun r => r.s),
               fields := fs, doc := s.documentation, since := ver,
               deprecated := s.deprecated }, st1)

/-- The entry loop of Enumeration::translate. -/
def translateVariants : List EnumerationEntry → TOut (List TargetEnumVariant)
  | [] => .ok []
  | e :: es =>
    match Version.parse e.since with
    | .error v => .fatal (.invalidVersion v) []
    | .ok ver =>
      match translateVariants es with
      | .panicked => .panicked
      | .fatal c cs => .fatal c cs
      | .ok vs =>
        .ok ({ name := e.name, doc := e.documentation, since := ver } :: vs)

/-- Model of translate.rs Enumeration::translate: only String kinds are
translatable (integer and uinteger kinds bail), and a bad enumeration since
field panics through unwrap_or_else. -/
def translateEnumeration (e : Enumeration) (st : TransSt) :
    TOut (TargetEnum × TransSt) :=
  match e.type_ with
  | .base kind =>
    match kind with
    | .integer => .fatal .intEnumsUnsupported []
    | .uinteger => .fatal .uintEnumsUnsupported []
    | .string =>
      match translateVariants e.values with
      | .panicked => .panicked
      | .fatal c cs => .fatal c cs
      | .ok vs =>
        match Version.parse e.since with
        | .error _ => .panicked
        | .ok ver =>
          .ok ({ name := e.name, variants := vs, doc := e.documentation,
                 since := ver, deprecated := e.deprecated }, st)

/-- Left rotation of a 32 bit value. -/
def rotl32 (x r : Nat) : Nat :=
  ((x <<< r) ||| (x >>> (32 - r))) % 4294967296

/-- One xxHash32 tail mix step over a 32 bit lane. -/
def xxhStep (acc lane : Nat) : Nat :=
  (rotl32 ((acc + lane * 3266489917) % 4294967296) 17 * 668265263) % 4294967296

/-- The xxHash32 avalanche finalisation. -/
def xxhFinish (h : Nat) : Nat :=
  let h1 := ((h ^^^ (h >>> 15)) * 2246822519) % 4294967296
  let h2 := ((h1 ^^^ (h1 >>> 13)) * 3266489917) % 4294967296
  h2 ^^^ (h2 >>> 16)

/-- An xxHash32 style digest of a token stream: seed plus length, the tail
mixing step per lane, then the avalanche. -/
def xxh32Tokens (ts : List Nat) : Nat :=
  xxhFinish ((ts.foldl xxhStep ((374761393 + ts.length) % 4294967296)) % 4294967296)

/-- One lowercase hexadecimal digit. -/
def hexDigit (n : Nat) : Char :=
  if n < 10 then Char.ofNat (48 + n) else Char.ofNat (87 + n)

/-- The format string {:08x} applied to a 32 bit value: exactly eight
lowercase hexadecimal digits with leading zeros. -/
def toHex8 (n : Nat) : String :=
  String.mk ((List.range 8).map (fun i => hexDigit ((n >>> (4 * (7 - i))) % 16)))

/-- Token encoding of a string for the fingerprint stream. -/
def encodeStr (s : String) : List Nat :=
  s.length :: s.data.map (fun c => c.toNat)

/-- Token encoding of an optional string. -/
def encodeOptStr : Option String → List Nat
  | none => [0]
  | some s => 1 :: encodeStr s

/-- Token encoding of a boolean. -/
def encodeBool (b : Bool) : List Nat :=
  [if b then 1 else 0]

/-- Token encoding of an optional boolean. -/
def encodeOptBool : Option Bool → List Nat
  | none => [0]
  | some b => 1 :: encodeBool b

/-- Token encoding of an optional string list. -/
def encodeOptStrList : Option (List String) → List Nat
  | none => [0]
  | some l => 1 :: l.length :: l.flatMap encodeStr

/-- Numeric tag of a BaseType variant. -/
def baseTag : BaseType → Nat
  | .uri => 0
  | .documentUri => 1
  | .integer => 2
  | .uinteger => 3
  | .decimal => 4
  | .regExp => 5
  | .string => 6
  | .boolean => 7
  | .null => 8

mutual

/-- Token encoding of a schema Type for the fingerprint stream. -/
def encodeType : SchemaType → List Nat
  | .base b => [0, baseTag b]
  | .reference n => 1 :: encodeStr n
  | .array e => 2 :: encodeType e
  | .mapT k v => 3 :: (encodeType k ++ encodeType v)
  | .or items => 4 :: encodeTypeList items
  | .tuple items => 5 :: encodeTypeList items
  | .literal v => 6 :: encodeLit v
  | .stringLiteral s => 7 :: encodeStr s
  | .integerLiteral n => [8, n.natAbs, if n < 0 then 1 else 0]
  | .booleanLiteral b => 9 :: encodeBool b
termination_by t => sizeOf t

/-- Token encoding of a Type list. -/
def encodeTypeList : List SchemaType → List Nat
  | [] => [0]
  | t :: ts => 1 :: (encodeType t ++ encodeTypeList ts)
termination_by ts => sizeOf ts

/-- Token encoding of a StructureLiteral. -/
def encodeLit : StructureLiteral → List Nat
  | .mk ps doc since tags prop dep =>
    encodePropList ps ++ encodeOptStr doc ++ encodeOptStr since ++
      encodeOptStrList tags ++ encodeBool prop ++ encodeOptStr dep
termination_by v => sizeOf v

/-- Token encoding of a Property list. -/
def encodePropList : List Property → List Nat
  | [] => [0]
  | p :: ps => 1 :: (encodeProp p ++ encodePropList ps)
termination_by ps => sizeOf ps

/-- Token encoding of a Property. -/
def encodeProp : Property → List Nat
  | .mk n ty doc opt since tags prop dep =>
    encodeStr n ++ encodeType ty ++ encodeOptStr doc ++ encodeOptBool opt ++
      encodeOptStr since ++ encodeOptStrList tags ++ encodeOptBool prop ++
      encodeOptStr dep
termination_by p => sizeOf p

end

/-- Modelled from the spec: the content fingerprint of a structure, a stable
hash over its full structural representation rendered as eight hexadecimal
digits.  The source computes fasthash xxHash32 over the stream produced by
the derived Hash impl; both live outside this repository, so the byte stream
is modelled as the structural token encoding above fed to the xxHash32 style
digest and formatted through the eight digit lowercase hexadecimal rendering
of {:08x}. -/
def fingerprintStructure (s : Structure) : String :=
  toHex8 (xxh32Tokens (encodeStr s.name ++ encodePropList s.properties ++
    encodeTypeList s.extends_ ++ encodeTypeList s.mixins ++
    encodeOptStr s.documentation ++ encodeOptStr s.since ++
    encodeOptStrList s.sinceTags ++ encodeOptBool s.proposed ++
    encodeOptStr s.deprecated))

/-- Token encoding of a serde_json scalar value. -/
def encodeJson : JsonValue → List Nat
  | .str s => 0 :: encodeStr s
  | .int n => [1, n.natAbs, if n < 0 then 1 else 0]
  | .bool b => 2 :: encodeBool b

/-- Token encoding of an EnumerationEntry. -/
def encodeEntry (e : EnumerationEntry) : List Nat :=
  encodeStr e.name ++ encodeJson e.value ++ encodeOptStr e.documentation ++
    encodeOptStr e.since ++ encodeBool e.proposed

/-- Modelled from the spec: the content fingerprint of an enumeration,
symmetric to fingerprintStructure. -/
def fingerprintEnumeration (e : Enumeration) : String :=
  toHex8 (xxh32Tokens (encodeStr e.name ++
    [match e.type_ with | .base .string => 0 | .base .integer => 1 | .base .uinteger => 2] ++
    e.values.length :: e.values.flatMap encodeEntry ++
    encodeBool e.supportsCustomValues ++ encodeOptStr e.documentation ++
    encodeOptStr e.since ++ encodeBool e.proposed ++ encodeOptStr e.deprecated))

/-- Model of the eprintln diagnostics of MetaModel::translate. -/
inductive Warning where
  | hashMismatchStruct (name expected got : String)
  | hashMismatchEnum (name expected got : String)
  | missingStructsReport (names : List String)
  | missingEnumsReport (names : List String)
  | missingAnonReport (keys : List String)
deriving DecidableEq, Repr

/-- The ways the single pass over the meta model can stop early: a panic or a
propagated eyre error. -/
inductive Abort where
  | panicked
  | fatal (cause : ErrCause) (ctx : List String)
deriving DecidableEq, Repr

/-- Result of a translation loop: the items pushed so far, the eprintln
events emitted so far, the final translator state, and how the loop stopped
(none means it ran to completion). -/
structure LoopRes where
  items : List Item
  warnings : List Warning
  st : TransSt
  abort : Option Abort
deriving DecidableEq, Repr

/-- The structures loop of MetaModel::translate: consume the config entry of
each structure; Generate translates and pushes an item (a failure aborts the
pass with the structure name as context), Checksum compares the fingerprint
and warns on drift, and a missing entry is recorded. -/
def runStructs : List Structure → TransSt → LoopRes
  | [], st => ⟨[], [], st, none⟩
  | s :: ss, st =>
    match mapRemove st.config.structs s.name with
    | (some (.generate _), structs1) =>
      let st1 := { st with config := { st.config with structs := structs1 } }
      match translateStructure s st1 with
      | .panicked => ⟨[], [], st1, some .panicked⟩
      | .fatal c cs =>
        ⟨[], [], st1, some (.fatal c (cs ++ ["translating structure " ++ s.name]))⟩
      | .ok (ts, st2) =>
        let r := runStructs ss st2
        ⟨.struct ts :: r.items, r.warnings, r.st, r.abort⟩
    | (some (.checksum cks), structs1) =>
      let st1 := { st with config := { st.config with structs := structs1 } }
      let h := fingerprintStructure s
      let r := runStructs ss st1
      if h = cks then ⟨r.items, r.warnings, r.st, r.abort⟩
      else ⟨r.items, .hashMismatchStruct s.name cks h :: r.warnings, r.st, r.abort⟩
    | (none, _) =>
      runStructs ss { st with structsMissing := insertSorted s.name st.structsMissing }

/-- The enumerations loop of MetaModel::translate, symmetric to runStructs. -/
def runEnums : List Enumeration → TransSt → LoopRes
  | [], st => ⟨[], [], st, none⟩
  | e :: es, st =>
    match mapRemove st.config.enums e.name with
    | (some (.generate _), enums1) =>
      let st1 := { st with config := { st.config with enums := enums1 } }
      match translateEnumeration e st1 with
      | .panicked => ⟨[], [], st1, some .panicked⟩
      | .fatal c cs =>
        ⟨[], [], st1, some (.fatal c (cs ++ ["translating enumeration " ++ e.name]))⟩
      | .ok (te, st2) =>
        let r := runEnums es st2
        ⟨.enum te :: r.items, r.warnings, r.st, r.abort⟩
    | (some (.checksum cks), enums1) =>
      let st1 := { st with config := { st.config with enums := enums1 } }
      let h := fingerprintEnumeration e
      let r := runEnums es st1
      if h = cks then ⟨r.items, r.warnings, r.st, r.abort⟩
      else ⟨r.items, .hashMismatchEnum e.name cks h :: r.warnings, r.st, r.abort⟩
    | (none, _) =>
      runEnums es { st with enumsMissing := insertSorted e.name st.enumsMissing }

/-- The initial translator state built by translate_schema from the cloned
config. -/
def initSt (cfg : Config) : TransSt :=
  ⟨cfg, [], [], []⟩

/-- Result of MetaModel::translate: the internal item vector, the emitted
warnings, the final state and the stop condition.  The loop over structures
runs first, then the missing structs report, then the enumerations loop, the
missing enums report and the missing anon mappings report; the function then
reaches an unconditional todo panic, so abort is never none. -/
structure MMResult where
  items : List Item
  warnings : List Warning
  st : TransSt
  abort : Option Abort
deriving DecidableEq, Repr

/-- Model of translate.rs MetaModel::translate. -/
def runMetaModel (mm : MetaModel) (cfg : Config) : MMResult :=
  let r1 := runStructs mm.structures (initSt cfg)
  match r1.abort with
  | some a => ⟨r1.items, r1.warnings, r1.st, some a⟩
  | none =>
    let w1 := if r1.st.structsMissing.isEmpty then []
      else [Warning.missingStructsReport r1.st.structsMissing]
    let r2 := runEnums mm.enumerations r1.st
    match r2.abort with
    | some a => ⟨r1.items ++ r2.items, r1.warnings ++ w1 ++ r2.warnings, r2.st, some a⟩
    | none =>
      let w2 := if r2.st.enumsMissing.isEmpty then []
        else [Warning.missingEnumsReport r2.st.enumsMissing]
      let w3 := if r2.st.anonMissing.isEmpty then []
        else [Warning.missingAnonReport r2.st.anonMissing]
      ⟨r1.items ++ r2.items, r1.warnings ++ w1 ++ r2.warnings ++ w2 ++ w3,
       r2.st, some .panicked⟩

/-- Model of translate.rs translate_schema: what the caller observes.  The
item vector is only returned on a successful completion, which the final todo
panic of MetaModel::translate makes unreachable. -/
def translate_schema (mm : MetaModel) (cfg : Config) : TOut (List Item) :=
  match (runMetaModel mm cfg).abort with
  | some .panicked => .panicked
  | some (.fatal c cs) => .fatal c cs
  | none => .ok (runMetaModel mm cfg).items

/-- Holds when a filtered arm list matches the optionality pattern of
Type::translate, a two element list whose second element is Base Null. -/
def isOptShape : List SchemaType → Bool
  | [_, .base .null] => true
  | _ => false

/-- The Option wrap applied by the optionality rule of Type::translate to the
translation of the first arm. -/
def optWrap : TOut (Option TypeRef × TransSt) → TOut (Option TypeRef × TransSt)
  | .panicked => .panicked
  | .fatal c cs => .fatal c cs
  | .ok (none, st1) => .ok (none, st1)
  | .ok (some inner, st1) => .ok (some (TypeRef.new_generics "Option" [inner]), st1)

/-- Unfolding lemma: a union whose filtered arm list is a single arm
translates as that arm. -/
theorem translateType_or_single {items : List SchemaType} {ty1 : SchemaType}
    (h : items.filter (fun it => !(isEmptyLit it)) = [ty1]) (st : TransSt) :
    translateType (.or items) st = translateType ty1 st := by
  conv_lhs => rw [translateType]
  split
  case _ ty2 h2 =>
    rw [h] at h2
    injection h2 with h3 _
    rw [h3]
  case _ ty2 h2 =>
    rw [h] at h2
    exact absurd h2 (by simp)
  next hne1 hne2 =>
    exact absurd h (hne1 ty1)

/-- Unfolding lemma: a union whose filtered arm list is an arm followed by
Base Null translates as the Option wrap of the first arm. -/
theorem translateType_or_optional {items : List SchemaType} {ty1 : SchemaType}
    (h : items.filter (fun it => !(isEmptyLit it)) = [ty1, .base .null])
    (st : TransSt) :
    translateType (.or items) st = optWrap (translateType ty1 st) := by
  conv_lhs => rw [translateType]
  split
  case _ ty2 h2 =>
    rw [h] at h2
    exact absurd h2.symm (by simp)
  case _ ty2 h2 =>
    rw [h] at h2
    injection h2 with h3 _
    rw [h3, optWrap.eq_def]
  next hne1 hne2 =>
    exact absurd h (hne2 ty1)

/-- Unfolding lemma: a union whose filtered arm list is neither a single arm
nor the optionality pattern falls through to the anonymous union lookup. -/
theorem translateType_or_fallback {items : List SchemaType}
    (h1 : ∀ ty1, items.filter (fun it => !(isEmptyLit it)) ≠ [ty1])
    (h2 : isOptShape (items.filter (fun it => !(isEmptyLit it))) = false)
    (st : TransSt) :
    translateType (.or items) st =
      orFallback (items.filter (fun it => !(isEmptyLit it))) st := by
  conv_lhs => rw [translateType]
  split
  case _ ty2 heq =>
    exact absurd heq (h1 ty2)
  case _ ty2 heq =>
    rw [heq] at h2
    exact absurd h2 (by simp [isOptShape])
  next hne1 hne2 =>
    rfl

/-- Pure characterisation of the types whose translation yields None (the
silently dropped fields): a StringLiteral, an Array of such a type, a Map
whose key or value is such a type, and a union that degenerates through the
single arm or optionality rules to such a type. -/
def dropsToNone (ty : SchemaType) : Bool :=
  match ty with
  | .stringLiteral _ => true
  | .array el => dropsToNone el
  | .mapT k v => dropsToNone k || dropsToNone v
  | .or items =>
    match h : items.filter (fun it => !(isEmptyLit it)) with
    | [ty1] => dropsToNone ty1
    | [ty1, .base .null] => dropsToNone ty1
    | _ => false
  | _ => false
termination_by sizeOf ty
decreasing_by
  all_goals simp_wf
  all_goals first
  | omega
  | (have hm : ty1 ∈ items.filter (fun it => !(isEmptyLit it)) := by
       rw [h]; exact List.mem_cons_self _ _
     have hm2 := List.sizeOf_lt_of_mem (List.mem_of_mem_filter hm)
     omega)

/-- Unfolding lemma for dropsToNone at a single arm union. -/
theorem dropsToNone_or_single {items : List SchemaType} {ty1 : SchemaType}
    (h : items.filter (fun it => !(isEmptyLit it)) = [ty1]) :
    dropsToNone (.or items) = dropsToNone ty1 := by
  conv_lhs => rw [dropsToNone]
  split
  case _ ty2 h2 =>
    rw [h] at h2
    injection h2 with h3 _
    rw [h3]
  case _ ty2 h2 =>
    rw [h] at h2
    exact absurd h2 (by simp)
  next hne1 hne2 =>
    exact absurd h (hne1 ty1)

/-- Unfolding lemma for dropsToNone at an optionality union. -/
theorem dropsToNone_or_optional {items : List SchemaType} {ty1 : SchemaType}
    (h : items.filter (fun it => !(isEmptyLit it)) = [ty1, .base .null]) :
    dropsToNone (.or items) = dropsToNone ty1 := by
  conv_lhs => rw [dropsToNone]
  split
  case _ ty2 h2 =>
    rw [h] at h2
    exact absurd h2.symm (by simp)
  case _ ty2 h2 =>
    rw [h] at h2
    injection h2 with h3 _
    rw [h3]
  next hne1 hne2 =>
    exact absurd h (hne2 ty1)

/-- Unfolding lemma for dropsToNone at a union taking the fallback path. -/
theorem dropsToNone_or_fallback {items : List SchemaType}
    (h1 : ∀ ty1, items.filter (fun it => !(isEmptyLit it)) = [ty1] → False)
    (h2 : ∀ ty1, items.filter (fun it => !(isEmptyLit it)) =
      [ty1, .base .null] → False) :
    dropsToNone (.or items) = false := by
  conv_lhs => rw [dropsToNone]
  split
  case _ ty2 heq => exact absurd heq (h1 ty2)
  case _ ty2 heq => exact absurd heq (h2 ty2)
  next hne1 hne2 => rfl

/-- A two element arm list matches the optionality pattern exactly when its
second element is Base Null. -/
theorem isOptShape_pair (a b : SchemaType) :
    isOptShape [a, b] = true ↔ b = SchemaType.base BaseType.null := by
  cases b <;> try simp [isOptShape]
  case base bb => cases bb <;> simp [isOptShape]

/-- A successful anonymous union fallback always yields a type (never None)
and only touches the anon missing set of the state. -/
theorem orFallback_ok_inv (l : List SchemaType) (st : TransSt)
    (r : Option TypeRef) (st2 : TransSt)
    (hok : orFallback l st = .ok (r, st2)) :
    (∃ tr, r = some tr) ∧ st2.config = st.config ∧
      st2.structsMissing = st.structsMissing ∧
      st2.enumsMissing = st.enumsMissing := by
  simp only [orFallback] at hok
  rcases hl : st.config.lookup_anon l with _ | er
  · rw [hl] at hok; cases hok
  · rw [hl] at hok
    rcases er with e | tr
    · rcases e with _ | key
      · cases hok
      · cases hok
        exact ⟨⟨TypeRef.new "todo!()", rfl⟩, rfl, rfl, rfl⟩
    · cases hok
      exact ⟨⟨tr, rfl⟩, rfl, rfl, rfl⟩

/-- Strong induction core: a successful type translation yields None exactly
when dropsToNone holds of the type, and leaves the config and the two entity
missing sets unchanged. -/
theorem transOkInv_aux : ∀ (n : Nat) (ty : SchemaType), sizeOf ty < n →
    ∀ st r st2, translateType ty st = .ok (r, st2) →
      ((r = none ↔ dropsToNone ty = true) ∧ st2.config = st.config ∧
        st2.structsMissing = st.structsMissing ∧
        st2.enumsMissing = st.enumsMissing) := by
  intro n
  induction n with
  | zero => intro ty h _ _ _ _; omega
  | succ n ih =>
    intro ty hlt st r st2 hok
    match ty with
    | .base b =>
      cases b <;> simp only [translateType] at hok <;> cases hok <;>
        exact ⟨by simp [dropsToNone], rfl, rfl, rfl⟩
    | .reference nm =>
      simp only [translateType] at hok
      cases hok
      exact ⟨by simp [dropsToNone], rfl, rfl, rfl⟩
    | .stringLiteral v =>
      simp only [translateType] at hok
      cases hok
      exact ⟨by simp [dropsToNone], rfl, rfl, rfl⟩
    | .tuple its => simp only [translateType] at hok; cases hok
    | .literal v => simp only [translateType] at hok; cases hok
    | .integerLiteral v => simp only [translateType] at hok; cases hok
    | .booleanLiteral v => simp only [translateType] at hok; cases hok
    | .array el =>
      have hels : 1 + sizeOf el = sizeOf (SchemaType.array el) := by simp
      have hel : sizeOf el < n := by omega
      simp only [translateType] at hok
      split at hok
      next he => cases hok
      next c cs he => cases hok
      next st1 he =>
        cases hok
        have hinner := ih el hel st _ _ he
        refine ⟨?_, hinner.2⟩
        simp only [dropsToNone]
        simpa using hinner.1
      next inner st1 he =>
        cases hok
        have hinner := ih el hel st _ _ he
        refine ⟨?_, hinner.2⟩
        simp only [dropsToNone]
        constructor
        · intro hx; cases hx
        · intro hd; exact absurd (hinner.1.mpr hd) (by simp)
    | .mapT k v =>
      have hkv : 1 + sizeOf k + sizeOf v = sizeOf (SchemaType.mapT k v) := by simp
      have hk2 : sizeOf k < n := by omega
      have hv2 : sizeOf v < n := by omega
      simp only [translateType] at hok
      split at hok
      next hk => cases hok
      next c cs hk => cases hok
      next st1 hk =>
        cases hok
        have hkinv := ih k hk2 st _ _ hk
        refine ⟨?_, hkinv.2⟩
        simp only [dropsToNone]
        simp [hkinv.1.mp rfl]
      next kk st1 hk =>
        have hkinv := ih k hk2 st _ _ hk
        have hkfalse : dropsToNone k = false := by
          rcases hdk : dropsToNone k with _ | _
          · rfl
          · exact absurd (hkinv.1.mpr hdk) (by simp)
        split at hok
        next hv => cases hok
        next c cs hv => cases hok
        next st3 hv =>
          cases hok
          have hvinv := ih v hv2 st1 _ _ hv
          refine ⟨?_, ?_⟩
          · simp only [dropsToNone]
            simp [hkfalse, hvinv.1.mp rfl]
          · exact ⟨(hvinv.2.1).trans hkinv.2.1,
              (hvinv.2.2.1).trans hkinv.2.2.1,
              (hvinv.2.2.2).trans hkinv.2.2.2⟩
        next vv st3 hv =>
          cases hok
          have hvinv := ih v hv2 st1 _ _ hv
          have hvfalse : dropsToNone v = false := by
            rcases hdv : dropsToNone v with _ | _
            · rfl
            · exact absurd (hvinv.1.mpr hdv) (by simp)
          refine ⟨?_, ?_⟩
          · simp only [dropsToNone]
            simp [hkfalse, hvfalse]
          · exact ⟨(hvinv.2.1).trans hkinv.2.1,
              (hvinv.2.2.1).trans hkinv.2.2.1,
              (hvinv.2.2.2).trans hkinv.2.2.2⟩
    | .or items =>
      rcases hshape : items.filter (fun it => !(isEmptyLit it)) with _ | ⟨ty1, tl⟩
      · have h1 : ∀ t1, items.filter (fun it => !(isEmptyLit it)) ≠ [t1] := by
          intro t1 ht; rw [hshape] at ht; cases ht
        have h2 : isOptShape (items.filter (fun it => !(isEmptyLit it))) = false := by
          rw [hshape]; rfl
        have h2f : ∀ t1, items.filter (fun it => !(isEmptyLit it)) ≠
            [t1, .base .null] := by
          intro t1 ht; rw [hshape] at ht; cases ht
        rw [translateType_or_fallback h1 h2] at hok
        obtain ⟨⟨tr, htr⟩, hrest⟩ := orFallback_ok_inv _ _ _ _ hok
        subst htr
        refine ⟨?_, hrest⟩
        rw [dropsToNone_or_fallback (fun t1 ht => h1 t1 ht) (fun t1 ht => h2f t1 ht)]
        simp
      · have hmem : ty1 ∈ items :=
          List.mem_of_mem_filter (by rw [hshape]; exact List.mem_cons_self _ _)
        have hsz : sizeOf ty1 < n := by
          have hm := List.sizeOf_lt_of_mem hmem
          have ho : 1 + sizeOf items = sizeOf (SchemaType.or items) := by simp
          omega
        rcases tl with _ | ⟨ty2, tl2⟩
        · rw [translateType_or_single hshape] at hok
          have hinner := ih ty1 hsz st r st2 hok
          rw [dropsToNone_or_single hshape]
          exact hinner
        · rcases tl2 with _ | ⟨ty3, tl3⟩
          · by_cases hnull : ty2 = SchemaType.base BaseType.null
            · subst hnull
              rw [translateType_or_optional hshape] at hok
              rw [dropsToNone_or_optional hshape]
              simp only [optWrap] at hok
              split at hok
              next ht1 => cases hok
              next c cs ht1 => cases hok
              next st1 ht1 =>
                cases hok
                have hinner := ih ty1 hsz st _ _ ht1
                exact ⟨by simpa using hinner.1, hinner.2⟩
              next inner st1 ht1 =>
                cases hok
                have hinner := ih ty1 hsz st _ _ ht1
                refine ⟨?_, hinner.2⟩
                constructor
                · intro hx; cases hx
                · intro hd; exact absurd (hinner.1.mpr hd) (by simp)
            · have h1 : ∀ t1, items.filter (fun it => !(isEmptyLit it)) ≠ [t1] := by
                intro t1 ht; rw [hshape] at ht; simp at ht
              have h2 : isOptShape (items.filter (fun it => !(isEmptyLit it))) = false := by
                rw [hshape]
                rcases hio : isOptShape [ty1, ty2] with _ | _
                · rfl
                · exact absurd ((isOptShape_pair ty1 ty2).mp hio) hnull
              have h2f : ∀ t1, items.filter (fun it => !(isEmptyLit it)) ≠
                  [t1, .base .null] := by
                intro t1 ht; rw [hshape] at ht
                injection ht with ha hb
                injection hb with hb2 _
                exact hnull hb2
              rw [translateType_or_fallback h1 h2] at hok
              obtain ⟨⟨tr, htr⟩, hrest⟩ := orFallback_ok_inv _ _ _ _ hok
              subst htr
              refine ⟨?_, hrest⟩
              rw [dropsToNone_or_fallback (fun t1 ht => h1 t1 ht) (fun t1 ht => h2f t1 ht)]
              simp
          · have h1 : ∀ t1, items.filter (fun it => !(isEmptyLit it)) ≠ [t1] := by
              intro t1 ht; rw [hshape] at ht; simp at ht
            have h2f : ∀ t1, items.filter (fun it => !(isEmptyLit it)) ≠
                [t1, .base .null] := by
              intro t1 ht; rw [hshape] at ht
              injection ht with ha hb
              injection hb with hb2 hb3
              cases hb3
            have h2 : isOptShape (items.filter (fun it => !(isEmptyLit it))) = false := by
              rw [hshape]
              cases ty2 <;> try rfl
              case base bb => cases bb <;> rfl
            rw [translateType_or_fallback h1 h2] at hok
            obtain ⟨⟨tr, htr⟩, hrest⟩ := orFallback_ok_inv _ _ _ _ hok
            subst htr
            refine ⟨?_, hrest⟩
            rw [dropsToNone_or_fallback (fun t1 ht => h1 t1 ht) (fun t1 ht => h2f t1 ht)]
            simp

/-- A successful type translation yields None exactly when dropsToNone holds,
and leaves the config and the entity missing sets unchanged. -/
theorem translateType_ok_inv {ty : SchemaType} {st : TransSt}
    {r : Option TypeRef} {st2 : TransSt}
    (hok : translateType ty st = .ok (r, st2)) :
    (r = none ↔ dropsToNone ty = true) ∧ st2.config = st.config ∧
      st2.structsMissing = st.structsMissing ∧
      st2.enumsMissing = st.enumsMissing :=
  transOkInv_aux (sizeOf ty + 1) ty (by omega) st r st2 hok

/-- A successful property loop emits exactly the properties whose type does
not drop to None, in source order, and leaves the config and entity missing
sets unchanged. -/
theorem translateProps_ok_inv : ∀ (ps : List Property) (st : TransSt)
    (fs : List TargetField) (st2 : TransSt),
    translateProps ps st = .ok (fs, st2) →
      fs.map (fun f => f.name) =
        (ps.filter (fun p => !(dropsToNone p.type_))).map (fun p => p.name) ∧
      st2.config = st.config ∧ st2.structsMissing = st.structsMissing ∧
      st2.enumsMissing = st.enumsMissing := by
  intro ps
  induction ps with
  | nil =>
    intro st fs st2 hok
    simp only [translateProps] at hok
    cases hok
    simp
  | cons p ps ihp =>
    intro st fs st2 hok
    simp only [translateProps] at hok
    split at hok
    next hty => cases hok
    next c cs hty => cases hok
    next st1 hty =>
      have hinv := translateType_ok_inv hty
      have hdrop : dropsToNone p.type_ = true := hinv.1.mp rfl
      have hrec := ihp st1 fs st2 hok
      refine ⟨?_, hrec.2.1.trans hinv.2.1, hrec.2.2.1.trans hinv.2.2.1,
        hrec.2.2.2.trans hinv.2.2.2⟩
      rw [hrec.1, List.filter_cons]
      simp [hdrop]
    next ty hty =>
      split at hok
      next v hv => cases hok
      next ver hv =>
        split at hok
        next hrec0 => cases hok
        next c cs hrec0 => cases hok
        next fs1 st21 hrec0 =>
          cases hok
          have hinv := translateType_ok_inv hty
          have hdrop : dropsToNone p.type_ = false := by
            rcases hd : dropsToNone p.type_ with _ | _
            · rfl
            · exact absurd (hinv.1.mpr hd) (by simp)
          have hrec := ihp _ _ _ hrec0
          refine ⟨?_, hrec.2.1.trans hinv.2.1, hrec.2.2.1.trans hinv.2.2.1,
            hrec.2.2.2.trans hinv.2.2.2⟩
          rw [List.filter_cons]
          simp only [hdrop, Bool.not_false, if_pos]
          simp [hrec.1]

/-- A successful structure translation names the target after the schema
structure, emits exactly the non dropped properties in source order, and
leaves the config and entity missing sets unchanged. -/
theorem translateStructure_ok_inv : ∀ (s : Structure) (st : TransSt)
    (ts : TargetStruct) (st2 : TransSt),
    translateStructure s st = .ok (ts, st2) →
      ts.name = s.name ∧
      ts.fields.map (fun f => f.name) =
        (s.properties.filter (fun p => !(dropsToNone p.type_))).map
          (fun p => p.name) ∧
      ts.fields.length =
        (s.properties.filter (fun p => !(dropsToNone p.type_))).length ∧
      st2.config = st.config ∧ st2.structsMissing = st.structsMissing ∧
      st2.enumsMissing = st.enumsMissing := by
  intro s st ts st2 hok
  simp only [translateStructure] at hok
  split at hok
  next hrefs => cases hok
  next refs hrefs =>
    split at hok
    next hps => cases hok
    next c cs hps => cases hok
    next fs st1 hps =>
      split at hok
      next v hv => cases hok
      next ver hv =>
        cases hok
        have hinv := translateProps_ok_inv _ _ _ _ hps
        refine ⟨rfl, hinv.1, ?_, hinv.2⟩
        have hlen := congrArg List.length hinv.1
        simpa using hlen

/-- Mapping into_reference().unwrap() over a list panics whenever some
element does not reduce to a reference. -/
theorem unwrapRefs_panicked : ∀ (l : List SchemaType),
    (∃ e ∈ l, ∀ tr, intoReference e ≠ .ok (some tr)) →
    unwrapRefs l = .panicked := by
  intro l
  induction l with
  | nil => intro ⟨e, he, _⟩; cases he
  | cons t ts ih =>
    intro ⟨e, he, hno⟩
    simp only [unwrapRefs]
    rcases hit : intoReference t with _ | r
    · rfl
    · rcases r with _ | tr
      · rfl
      · rcases List.mem_cons.mp he with rfl | hets
        · exact absurd hit (hno tr)
        · rw [ih ⟨e, hets, hno⟩]

/-- Short circuit characterisation of the collect step: if no arm panics,
the collect yields None exactly when some arm reduces to None. -/
theorem collectRefs_none_iff : ∀ (l : List SchemaType),
    (∀ a ∈ l, intoReference a ≠ .panicked) →
    (collectRefs l = .ok none ↔ ∃ a ∈ l, intoReference a = .ok none) := by
  intro l
  induction l with
  | nil =>
    intro _
    simp only [collectRefs]
    constructor
    · intro h; cases h
    · intro ⟨a, ha, _⟩; cases ha
  | cons t ts ih =>
    intro hnp
    simp only [collectRefs]
    rcases hit : intoReference t with _ | r
    · exact absurd hit (hnp t (List.mem_cons_self _ _))
    · rcases r with _ | tr
      · constructor
        · intro _; exact ⟨t, List.mem_cons_self _ _, hit⟩
        · intro _; rfl
      · have ihts := ih (fun a ha => hnp a (List.mem_cons_of_mem _ ha))
        rcases hcs : collectRefs ts with _ | rs
        · constructor
          · intro h; cases h
          · intro ⟨a, ha, hanone⟩
            rcases List.mem_cons.mp ha with rfl | hats
            · rw [hit] at hanone; cases hanone
            · exact absurd (ihts.mpr ⟨a, hats, hanone⟩) (by rw [hcs]; simp)
        · rcases rs with _ | rs2
          · constructor
            · intro _
              obtain ⟨a, hats, hanone⟩ := ihts.mp hcs
              exact ⟨a, List.mem_cons_of_mem _ hats, hanone⟩
            · intro _; rfl
          · constructor
            · intro h; cases h
            · intro ⟨a, ha, hanone⟩
              rcases List.mem_cons.mp ha with rfl | hats
              · rw [hit] at hanone; cases hanone
              · exact absurd (ihts.mpr ⟨a, hats, hanone⟩) (by rw [hcs]; simp)

/-- The removed value of mapRemove is the mapFind value. -/
theorem mapRemove_fst {α : Type} : ∀ (m : List (String × α)) (k : String),
    (mapRemove m k).1 = mapFind m k := by
  intro m
  induction m with
  | nil => intro k; rfl
  | cons e rest ih =>
    intro k
    rcases e with ⟨k2, v⟩
    simp only [mapRemove, mapFind]
    split
    · rfl
    · exact ih k

/-- Removing one key does not change lookups of another key. -/
theorem mapFind_mapRemove_ne {α : Type} : ∀ (m : List (String × α))
    (k k2 : String), k ≠ k2 → mapFind (mapRemove m k2).2 k = mapFind m k := by
  intro m
  induction m with
  | nil => intro k k2 _; rfl
  | cons e rest ih =>
    intro k k2 hne
    rcases e with ⟨k3, v⟩
    simp only [mapRemove, mapFind]
    split
    next heq =>
      have : k3 ≠ k := by rw [heq]; exact fun hc => hne hc.symm
      simp only [mapFind, if_neg this]
    next hne3 =>
      simp only [mapFind]
      split
      · rfl
      · exact ih k k2 hne

/-- An inserted element is a member of the sorted set. -/
theorem insertSorted_mem : ∀ (x : String) (l : List String),
    x ∈ insertSorted x l := by
  intro x l
  induction l with
  | nil => exact List.mem_cons_self _ _
  | cons y ys ih =>
    simp only [insertSorted]
    split
    · exact List.mem_cons_self _ _
    · split
      next heq => rw [heq]; exact List.mem_cons_self _ _
      next => exact List.mem_cons_of_mem _ ih

/-- Holds of an output item that is a struct with the given name. -/
def isStructNamed (n : String) : Item → Bool
  | .struct ts => ts.name == n
  | _ => false

/-- Unfolding: the structures loop on an empty list. -/
theorem runStructs_nil (st : TransSt) : runStructs [] st = ⟨[], [], st, none⟩ :=
  rfl

/-- Unfolding: the structures loop at a Generate entry whose translation
panics. -/
theorem runStructs_cons_gen_panic {st : TransSt} {s : Structure} {b : Bool}
    {structs1 : List (String × CodegenOption)}
    (hmr : mapRemove st.config.structs s.name = (some (.generate b), structs1))
    (hp : translateStructure s
      { st with config := { st.config with structs := structs1 } } = .panicked)
    (ss : List Structure) :
    runStructs (s :: ss) st =
      ⟨[], [], { st with config := { st.config with structs := structs1 } },
       some .panicked⟩ := by
  simp only [runStructs, hmr, hp]

/-- Unfolding: the structures loop at a Generate entry whose translation
fails, adding the structure name as context. -/
theorem runStructs_cons_gen_fatal {st : TransSt} {s : Structure} {b : Bool}
    {structs1 : List (String × CodegenOption)} {c : ErrCause} {cs : List String}
    (hmr : mapRemove st.config.structs s.name = (some (.generate b), structs1))
    (hf : translateStructure s
      { st with config := { st.config with structs := structs1 } } =
      .fatal c cs)
    (ss : List Structure) :
    runStructs (s :: ss) st =
      ⟨[], [], { st with config := { st.config with structs := structs1 } },
       some (.fatal c (cs ++ ["translating structure " ++ s.name]))⟩ := by
  simp only [runStructs, hmr, hf]

/-- Unfolding: the structures loop at a Generate entry whose translation
succeeds, pushing the struct item. -/
theorem runStructs_cons_gen_ok {st : TransSt} {s : Structure} {b : Bool}
    {structs1 : List (String × CodegenOption)} {ts : TargetStruct}
    {st2 : TransSt}
    (hmr : mapRemove st.config.structs s.name = (some (.generate b), structs1))
    (hok : translateStructure s
      { st with config := { st.config with structs := structs1 } } =
      .ok (ts, st2))
    (ss : List Structure) :
    runStructs (s :: ss) st =
      ⟨.struct ts :: (runStructs ss st2).items, (runStructs ss st2).warnings,
       (runStructs ss st2).st, (runStructs ss st2).abort⟩ := by
  simp only [runStructs, hmr, hok]

/-- Unfolding: the structures loop at a Checksum config entry. -/
theorem runStructs_cons_cksum {st : TransSt} {s : Structure} {cks : String}
    {structs1 : List (String × CodegenOption)}
    (hmr : mapRemove st.config.structs s.name = (some (.checksum cks), structs1))
    (ss : List Structure) :
    runStructs (s :: ss) st =
      (let st1 := { st with config := { st.config with structs := structs1 } }
       let r := runStructs ss st1
       if fingerprintStructure s = cks then ⟨r.items, r.warnings, r.st, r.abort⟩
       else ⟨r.items,
         .hashMismatchStruct s.name cks (fingerprintStructure s) :: r.warnings,
         r.st, r.abort⟩) := by
  simp only [runStructs, hmr]

/-- Unfolding: the structures loop at a missing config entry. -/
theorem runStructs_cons_none {st : TransSt} {s : Structure}
    {structs1 : List (String × CodegenOption)}
    (hmr : mapRemove st.config.structs s.name = (none, structs1))
    (ss : List Structure) :
    runStructs (s :: ss) st =
      runStructs ss
        { st with structsMissing := insertSorted s.name st.structsMissing } := by
  simp only [runStructs, hmr]

/-- A completed prefix of the structures loop composes with the rest of the
loop by concatenating items and warnings. -/
theorem runStructs_append : ∀ (ss1 ss2 : List Structure) (st : TransSt),
    (runStructs ss1 st).abort = none →
    runStructs (ss1 ++ ss2) st =
      ⟨(runStructs ss1 st).items ++
         (runStructs ss2 (runStructs ss1 st).st).items,
       (runStructs ss1 st).warnings ++
         (runStructs ss2 (runStructs ss1 st).st).warnings,
       (runStructs ss2 (runStructs ss1 st).st).st,
       (runStructs ss2 (runStructs ss1 st).st).abort⟩ := by
  intro ss1
  induction ss1 with
  | nil => intro ss2 st _; simp [runStructs_nil]
  | cons s ss1 ih =>
    intro ss2 st habort
    rw [List.cons_append]
    rcases hmr : mapRemove st.config.structs s.name with ⟨o, structs1⟩
    rcases o with _ | co
    · rw [runStructs_cons_none hmr] at habort ⊢
      rw [runStructs_cons_none hmr]
      exact ih ss2 _ habort
    · rcases co with b | cks
      · rcases hts : translateStructure s
            { st with config := { st.config with structs := structs1 } } with
          _ | ⟨c, cs⟩ | ⟨⟨ts, st2⟩⟩
        · rw [runStructs_cons_gen_panic hmr hts] at habort; cases habort
        · rw [runStructs_cons_gen_fatal hmr hts] at habort; cases habort
        · rw [runStructs_cons_gen_ok hmr hts] at habort
          rw [runStructs_cons_gen_ok hmr hts, runStructs_cons_gen_ok hmr hts]
          have habort2 : (runStructs ss1 st2).abort = none := habort
          rw [ih ss2 st2 habort2]
          simp
      · rw [runStructs_cons_cksum hmr] at habort ⊢
        rw [runStructs_cons_cksum hmr]
        split at habort
        next hfp =>
          rw [if_pos hfp, if_pos hfp]
          have habort2 : (runStructs ss1
            { st with config := { st.config with structs := structs1 } }).abort
              = none := habort
          rw [ih ss2 _ habort2]
        next hfp =>
          rw [if_neg hfp, if_neg hfp]
          have habort2 : (runStructs ss1
            { st with config := { st.config with structs := structs1 } }).abort
              = none := habort
          rw [ih ss2 _ habort2]
          simp

/-- An aborted prefix of the structures loop determines the whole loop. -/
theorem runStructs_append_abort : ∀ (ss1 ss2 : List Structure) (st : TransSt)
    (a : Abort), (runStructs ss1 st).abort = some a →
    runStructs (ss1 ++ ss2) st = runStructs ss1 st := by
  intro ss1
  induction ss1 with
  | nil => intro ss2 st a h; cases h
  | cons s ss1 ih =>
    intro ss2 st a habort
    rw [List.cons_append]
    rcases hmr : mapRemove st.config.structs s.name with ⟨o, structs1⟩
    rcases o with _ | co
    · rw [runStructs_cons_none hmr] at habort ⊢
      rw [runStructs_cons_none hmr]
      exact ih ss2 _ a habort
    · rcases co with b | cks
      · rcases hts : translateStructure s
            { st with config := { st.config with structs := structs1 } } with
          _ | ⟨c, cs⟩ | ⟨⟨ts, st2⟩⟩
        · rw [runStructs_cons_gen_panic hmr hts,
            runStructs_cons_gen_panic hmr hts]
        · rw [runStructs_cons_gen_fatal hmr hts,
            runStructs_cons_gen_fatal hmr hts]
        · rw [runStructs_cons_gen_ok hmr hts] at habort
          rw [runStructs_cons_gen_ok hmr hts, runStructs_cons_gen_ok hmr hts]
          have habort2 : (runStructs ss1 st2).abort = some a := habort
          rw [ih ss2 st2 a habort2]
      · rw [runStructs_cons_cksum hmr] at habort ⊢
        rw [runStructs_cons_cksum hmr]
        split at habort
        next hfp =>
          rw [if_pos hfp, if_pos hfp]
          rw [ih ss2 _ a habort]
        next hfp =>
          rw [if_neg hfp, if_neg hfp]
          have habort2 : (runStructs ss1
            { st with config := { st.config with structs := structs1 } }).abort
              = some a := habort
          rw [ih ss2 _ a habort2]

/-- Every item pushed by the structures loop is a struct named after one of
the walked structures. -/
theorem runStructs_items_names : ∀ (ss : List Structure) (st : TransSt)
    (it : Item), it ∈ (runStructs ss st).items →
    ∃ s ∈ ss, ∃ ts : TargetStruct, it = .struct ts ∧ ts.name = s.name := by
  intro ss
  induction ss with
  | nil => intro st it hit; cases hit
  | cons s ss ih =>
    intro st it hit
    rcases hmr : mapRemove st.config.structs s.name with ⟨o, structs1⟩
    rcases o with _ | co
    · rw [runStructs_cons_none hmr] at hit
      obtain ⟨s2, hs2, hts⟩ := ih _ it hit
      exact ⟨s2, List.mem_cons_of_mem _ hs2, hts⟩
    · rcases co with b | cks
      · rcases hts : translateStructure s
            { st with config := { st.config with structs := structs1 } } with
          _ | ⟨c, cs⟩ | ⟨⟨ts, st2⟩⟩
        · rw [runStructs_cons_gen_panic hmr hts] at hit; cases hit
        · rw [runStructs_cons_gen_fatal hmr hts] at hit; cases hit
        · rw [runStructs_cons_gen_ok hmr hts] at hit
          rcases List.mem_cons.mp hit with rfl | htl
          · exact ⟨s, List.mem_cons_self _ _, ts, rfl,
              (translateStructure_ok_inv _ _ _ _ hts).1⟩
          · obtain ⟨s2, hs2, hres⟩ := ih _ it htl
            exact ⟨s2, List.mem_cons_of_mem _ hs2, hres⟩
      · rw [runStructs_cons_cksum hmr] at hit
        simp only at hit
        split at hit
        · obtain ⟨s2, hs2, hres⟩ := ih _ it hit
          exact ⟨s2, List.mem_cons_of_mem _ hs2, hres⟩
        · obtain ⟨s2, hs2, hres⟩ := ih _ it hit
          exact ⟨s2, List.mem_cons_of_mem _ hs2, hres⟩

/-- A name not among the walked structures has no struct item in the loop
output. -/
theorem runStructs_countP_zero (ss : List Structure) (st : TransSt)
    (n : String) (hn : n ∉ ss.map (fun s => s.name)) :
    (runStructs ss st).items.countP (fun it => isStructNamed n it) = 0 := by
  rw [List.countP_eq_zero]
  intro it hit
  obtain ⟨s2, hs2, ts, rfl, hname⟩ := runStructs_items_names ss st it hit
  simp only [isStructNamed]
  rw [hname]
  intro hc
  exact hn (List.mem_map.mpr ⟨s2, hs2, by simpa using hc⟩)

/-- The structures loop does not touch config entries of structures outside
the walked list. -/
theorem runStructs_preserves_find : ∀ (ss : List Structure) (st : TransSt)
    (n : String), n ∉ ss.map (fun s => s.name) →
    mapFind (runStructs ss st).st.config.structs n =
      mapFind st.config.structs n := by
  intro ss
  induction ss with
  | nil => intro st n _; rfl
  | cons s ss ih =>
    intro st n hn
    have hne : n ≠ s.name := by
      intro hc
      exact hn (by rw [hc]; simp)
    have hntl : n ∉ ss.map (fun s => s.name) := by
      intro hc
      rcases List.mem_map.mp hc with ⟨s2, hs2, hs2n⟩
      exact hn (List.mem_map.mpr ⟨s2, List.mem_cons_of_mem _ hs2, hs2n⟩)
    rcases hmr : mapRemove st.config.structs s.name with ⟨o, structs1⟩
    have hpres : mapFind structs1 n = mapFind st.config.structs n := by
      have h2 := mapFind_mapRemove_ne st.config.structs n s.name hne
      rw [hmr] at h2
      exact h2
    rcases o with _ | co
    · rw [runStructs_cons_none hmr]
      rw [ih _ n hntl]
    · rcases co with b | cks
      · rcases hts : translateStructure s
            { st with config := { st.config with structs := structs1 } } with
          _ | ⟨c, cs⟩ | ⟨⟨ts, st2⟩⟩
        · rw [runStructs_cons_gen_panic hmr hts]
          exact hpres
        · rw [runStructs_cons_gen_fatal hmr hts]
          exact hpres
        · rw [runStructs_cons_gen_ok hmr hts]
          rw [ih st2 n hntl]
          have hcfg := (translateStructure_ok_inv _ _ _ _ hts).2.2.2.1
          rw [hcfg]
          exact hpres
      · rw [runStructs_cons_cksum hmr]
        simp only
        split
        · rw [ih _ n hntl]
          exact hpres
        · rw [ih _ n hntl]
          exact hpres

/-- Unfolding: the enumerations loop on an empty list. -/
theorem runEnums_nil (st : TransSt) : runEnums [] st = ⟨[], [], st, none⟩ :=
  rfl

/-- Unfolding: the enumerations loop at a Checksum config entry. -/
theorem runEnums_cons_cksum {st : TransSt} {e : Enumeration} {cks : String}
    {enums1 : List (String × CodegenOption)}
    (hmr : mapRemove st.config.enums e.name = (some (.checksum cks), enums1))
    (es : List Enumeration) :
    runEnums (e :: es) st =
      (let st1 := { st with config := { st.config with enums := enums1 } }
       let r := runEnums es st1
       if fingerprintEnumeration e = cks then ⟨r.items, r.warnings, r.st, r.abort⟩
       else ⟨r.items,
         .hashMismatchEnum e.name cks (fingerprintEnumeration e) :: r.warnings,
         r.st, r.abort⟩) := by
  simp only [runEnums, hmr]

/-- Every item pushed by the enumerations loop is an enum item. -/
theorem runEnums_items_enum : ∀ (es : List Enumeration) (st : TransSt)
    (it : Item), it ∈ (runEnums es st).items → ∃ te, it = Item.enum te := by
  intro es
  induction es with
  | nil => intro st it hit; cases hit
  | cons e es ih =>
    intro st it hit
    rcases hmr : mapRemove st.config.enums e.name with ⟨o, enums1⟩
    rcases o with _ | co
    · rw [show runEnums (e :: es) st = runEnums es
          { st with enumsMissing := insertSorted e.name st.enumsMissing } from
          by simp only [runEnums, hmr]] at hit
      exact ih _ it hit
    · rcases co with b | cks
      · rcases hte : translateEnumeration e
            { st with config := { st.config with enums := enums1 } } with
          _ | ⟨c, cs⟩ | ⟨⟨te, st2⟩⟩
        · rw [show runEnums (e :: es) st = ⟨[], [],
            { st with config := { st.config with enums := enums1 } },
            some .panicked⟩ from by simp only [runEnums, hmr, hte]] at hit
          cases hit
        · rw [show runEnums (e :: es) st = ⟨[], [],
            { st with config := { st.config with enums := enums1 } },
            some (.fatal c (cs ++ ["translating enumeration " ++ e.name]))⟩ from
            by simp only [runEnums, hmr, hte]] at hit
          cases hit
        · rw [show runEnums (e :: es) st = ⟨.enum te ::
            (runEnums es st2).items, (runEnums es st2).warnings,
            (runEnums es st2).st, (runEnums es st2).abort⟩ from
            by simp only [runEnums, hmr, hte]] at hit
          rcases List.mem_cons.mp hit with rfl | htl
          · exact ⟨te, rfl⟩
          · exact ih _ it htl
      · rw [runEnums_cons_cksum hmr] at hit
        simp only at hit
        split at hit
        · exact ih _ it hit
        · exact ih _ it hit

/-- No struct item comes out of the enumerations loop. -/
theorem runEnums_countP_zero (es : List Enumeration) (st : TransSt)
    (n : String) :
    (runEnums es st).items.countP (fun it => isStructNamed n it) = 0 := by
  rw [List.countP_eq_zero]
  intro it hit
  obtain ⟨te, rfl⟩ := runEnums_items_enum es st it hit
  simp [isStructNamed]

/-- An empty config model. -/
def emptyConfig : Config := ⟨"", [], [], []⟩

/-- The translator state at the start of a run over the empty config. -/
def emptySt : TransSt := initSt emptyConfig

/-- A structure with no properties and no config entry: a purely recoverable
gap (it is skipped and reported as missing). -/
def mmC1 : MetaModel :=
  ⟨[⟨"Foo", [], [], [], none, none, none, none, none⟩], []⟩

/-- C1: the claim says a run hitting only recoverable gaps completes and
returns the translated items.  The code instead reaches the unconditional
todo panic at the end of MetaModel::translate, so even a run whose only gap
is one missing config entry (every gap recoverable) panics and returns
nothing.  This theorem evaluates the translator at that failing input. -/
theorem claim_C1_todo_panic : translate_schema mmC1 emptyConfig = .panicked := by
  rfl

/-- C8: a union whose arms reduce, after dropping zero property literal arms,
to a single arm T translates exactly as T. -/
theorem claim_C8 (items : List SchemaType) (ty1 : SchemaType) (st : TransSt)
    (h : items.filter (fun it => !(isEmptyLit it)) = [ty1]) :
    translateType (.or items) st = translateType ty1 st :=
  translateType_or_single h st

/-- Witness for C8 at the union of an empty literal arm and a reference arm. -/
theorem claim_C8_witness :
    [SchemaType.literal ⟨[], none, none, none, false, none⟩,
      SchemaType.reference "A"].filter (fun it => !(isEmptyLit it)) =
        [SchemaType.reference "A"] ∧
    translateType
      (.or [SchemaType.literal ⟨[], none, none, none, false, none⟩,
        SchemaType.reference "A"]) emptySt =
      translateType (.reference "A") emptySt := by
  refine ⟨?_, claim_C8 _ _ _ ?_⟩ <;>
    simp [isEmptyLit, StructureLiteral.properties]

/-- C10: reducing extends and mixins through into_reference().unwrap() panics
as soon as one entry is not reducible, instead of producing the
contextualized error used for other fatal shapes. -/
theorem claim_C10 (s : Structure) (st : TransSt)
    (h : ∃ e ∈ s.extends_ ++ s.mixins, ∀ tr, intoReference e ≠ .ok (some tr)) :
    translateStructure s st = .panicked := by
  simp only [translateStructure]
  rw [unwrapRefs_panicked _ h]

/-- A structure extending an Or type, which into_reference cannot reduce. -/
def sC10 : Structure :=
  ⟨"S", [], [.or []], [], none, none, none, none, none⟩

/-- Witness for C10: translating a structure whose extends list holds an Or
type panics. -/
theorem claim_C10_witness :
    (∃ e ∈ sC10.extends_ ++ sC10.mixins,
      ∀ tr, intoReference e ≠ .ok (some tr)) ∧
    translateStructure sC10 emptySt = .panicked := by
  have h : ∃ e ∈ sC10.extends_ ++ sC10.mixins,
      ∀ tr, intoReference e ≠ .ok (some tr) := by
    refine ⟨.or [], by simp [sC10], ?_⟩
    intro tr hc
    simp [intoReference] at hc
  exact ⟨h, claim_C10 sC10 emptySt h⟩

/-- Strings with equal character data are equal. -/
theorem stringDataExt {s t : String} (h : s.data = t.data) : s = t := by
  cases s
  cases t
  exact congrArg String.mk (by simpa using h)

/-- Cancellation around a separator character absent from both prefixes. -/
theorem eq_of_append_cons_eq {c : Char} : ∀ (as bs xs ys : List Char),
    c ∉ as → c ∉ bs → as ++ c :: xs = bs ++ c :: ys → as = bs := by
  intro as
  induction as with
  | nil =>
    intro bs xs ys _ hcb h
    cases bs with
    | nil => rfl
    | cons b bs2 =>
      injection h with h1 _
      rw [h1] at hcb
      exact absurd (List.mem_cons_self _ _) hcb
  | cons a as2 ih =>
    intro bs xs ys hca hcb h
    cases bs with
    | nil =>
      injection h with h1 _
      rw [← h1] at hca
      exact absurd (List.mem_cons_self _ _) hca
    | cons b bs2 =>
      injection h with h1 h2
      have hca2 : c ∉ as2 := fun hc => hca (List.mem_cons_of_mem _ hc)
      have hcb2 : c ∉ bs2 := fun hc => hcb (List.mem_cons_of_mem _ hc)
      rw [h1, ih bs2 xs ys hca2 hcb2 h2]

/-- C2 counterexample input state. -/
def stC2 : TransSt := emptySt

/-- C2 counterexample: at T = Base Null the union Or([Null, Null]) does match
the optionality rule (panicking while translating the inner Null through
todo), rather than falling through to the anonymous union lookup, which
would instead produce the hard error of an undecidable union. -/
theorem claim_C2_counterexample :
    translateType (.or [.base .null, .base .null]) stC2 ≠
      orFallback [.base .null, .base .null] stC2 := by
  have h1 : translateType (.or [.base .null, .base .null]) stC2 = .panicked := by
    rw [@translateType_or_optional [.base .null, .base .null] (.base .null)
      (by simp [isEmptyLit]) stC2]
    simp [translateType, optWrap]
  have h2 : orFallback [.base .null, .base .null] stC2 =
      .fatal .invalidAnonItems [] := by
    simp [orFallback, Config.lookup_anon, collectRefs, intoReference, stC2,
      emptySt, initSt, emptyConfig]
  rw [h1, h2]
  simp

/-- C2 (amended): for every T that is neither a zero property literal nor
Base Null, Or([T, Null]) translates to the Option wrap of the translation of
T (None stays None, a panic or error propagates), while Or([Null, T]) does
not match the optionality rule and falls through to the anonymous union
lookup path. -/
theorem claim_C2 (T : SchemaType) (st : TransSt)
    (h1 : isEmptyLit T = false) (h2 : T ≠ .base .null) :
    translateType (.or [T, .base .null]) st = optWrap (translateType T st) ∧
    translateType (.or [.base .null, T]) st =
      orFallback [.base .null, T] st := by
  have hnull : isEmptyLit (.base .null) = false := rfl
  have hfil1 : [T, SchemaType.base .null].filter (fun it => !(isEmptyLit it)) =
      [T, .base .null] := by
    simp [List.filter_cons, h1, hnull]
  have hfil2 : [SchemaType.base .null, T].filter (fun it => !(isEmptyLit it)) =
      [.base .null, T] := by
    simp [List.filter_cons, h1, hnull]
  constructor
  · exact translateType_or_optional hfil1 st
  · have hne1 : ∀ ty1, [SchemaType.base .null, T].filter
        (fun it => !(isEmptyLit it)) ≠ [ty1] := by
      intro ty1 hc
      rw [hfil2] at hc
      simp at hc
    have hopt : isOptShape ([SchemaType.base .null, T].filter
        (fun it => !(isEmptyLit it))) = false := by
      rw [hfil2]
      rcases hio : isOptShape [SchemaType.base .null, T] with _ | _
      · rfl
      · exact absurd ((isOptShape_pair _ T).mp hio) h2
    rw [translateType_or_fallback hne1 hopt, hfil2]

/-- Witness for C2 at T = Reference A. -/
theorem claim_C2_witness :
    isEmptyLit (.reference "A") = false ∧
    (SchemaType.reference "A" ≠ .base .null) ∧
    (translateType (.or [.reference "A", .base .null]) emptySt =
       optWrap (translateType (.reference "A") emptySt) ∧
     translateType (.or [.base .null, .reference "A"]) emptySt =
       orFallback [.base .null, .reference "A"] emptySt) := by
  refine ⟨rfl, by simp, claim_C2 _ _ rfl (by simp)⟩

/-- C9 counterexample: a bare name application and a generic instantiation of
semantically different shapes rendering to the same string, because the bare
name constructor accepts arbitrary text. -/
theorem claim_C9_counterexample :
    TypeRef.new "Vec<i64>" = TypeRef.new_generics "Vec" [TypeRef.new "i64"] := by
  rfl

/-- C9 (amended): the three TypeRef builders render semantically different
shapes to different strings provided the bare name contains no angle bracket
opener and no parenthesis opener, and the generic base name contains no
parenthesis opener. -/
theorem claim_C9 (n m : String) (args els : List TypeRef)
    (hn1 : '<' ∉ n.data) (hn2 : '(' ∉ n.data)
    (hm : '(' ∉ m.data) :
    TypeRef.new n ≠ TypeRef.new_generics m args ∧
    TypeRef.new n ≠ TypeRef.new_tuple els ∧
    TypeRef.new_generics m args ≠ TypeRef.new_tuple els := by
  refine ⟨?_, ?_, ?_⟩
  · intro heq
    have hs : n = m ++ "<" ++
        String.intercalate "," (args.map (fun t => t.s)) ++ ">" := by
      simpa [TypeRef.new, TypeRef.new_generics] using congrArg TypeRef.s heq
    apply hn1
    rw [congrArg String.data hs]
    simp [String.data_append]
  · intro heq
    have hs : n = "(" ++
        String.intercalate "," (els.map (fun t => t.s)) ++ ")" := by
      simpa [TypeRef.new, TypeRef.new_tuple] using congrArg TypeRef.s heq
    apply hn2
    rw [congrArg String.data hs]
    simp [String.data_append]
  · intro heq
    have hs : m ++ "<" ++
        String.intercalate "," (args.map (fun t => t.s)) ++ ">" =
        "(" ++ String.intercalate "," (els.map (fun t => t.s)) ++ ")" := by
      simpa [TypeRef.new_generics, TypeRef.new_tuple] using congrArg TypeRef.s heq
    have hd := congrArg String.data hs
    simp only [String.data_append] at hd
    rcases hmd : m.data with _ | ⟨c0, cm⟩
    · rw [hmd] at hd
      simp at hd
    · rw [hmd] at hd
      have hc0 : c0 = Char.ofNat 40 := by
        have h0 := congrArg (fun l => l.headD (Char.ofNat 0)) hd
        simpa using h0
      apply hm
      rw [hmd, hc0]
      exact List.mem_cons_self _ _

/-- Witness for C9 at clean names. -/
theorem claim_C9_witness :
    ( '<' ∉ "Vec".data) ∧ ( '(' ∉ "Vec".data) ∧
    ( '(' ∉ "Option".data) ∧
    (TypeRef.new "Vec" ≠ TypeRef.new_generics "Option" [TypeRef.new "i64"] ∧
     TypeRef.new "Vec" ≠ TypeRef.new_tuple [TypeRef.new "i64"] ∧
     TypeRef.new_generics "Option" [TypeRef.new "i64"] ≠
       TypeRef.new_tuple [TypeRef.new "i64"]) := by
  refine ⟨by decide, by decide, by decide,
    claim_C9 "Vec" "Option" [TypeRef.new "i64"] [TypeRef.new "i64"]
      (by decide) (by decide) (by decide)⟩

/-- The collect step cannot panic when no arm panics. -/
theorem collectRefs_no_panic : ∀ (l : List SchemaType),
    (∀ a ∈ l, intoReference a ≠ .panicked) →
    collectRefs l ≠ .panicked := by
  intro l
  induction l with
  | nil => intro _ h; cases h
  | cons t ts ih =>
    intro hnp
    simp only [collectRefs]
    rcases hit : intoReference t with _ | r
    · exact absurd hit (hnp t (List.mem_cons_self _ _))
    · rcases r with _ | tr
      · intro h; cases h
      · rcases hcs : collectRefs ts with _ | rs
        · exact absurd hcs (ih (fun a ha => hnp a (List.mem_cons_of_mem _ ha)))
        · rcases rs with _ | rs2
          · intro h; cases h
          · intro h; cases h

/-- C3 counterexample: an arm that is a Tuple containing an irreducible
element makes lookup_anon panic (through into_reference().unwrap()) instead
of returning Err(None), although that arm cannot be reduced. -/
theorem claim_C3_counterexample :
    Config.lookup_anon emptyConfig [.tuple [.or []]] = .panicked := by
  simp [Config.lookup_anon, collectRefs, intoReference, unwrapRefs]

/-- C3 (amended): for arms none of which panics under into_reference, the
lookup fails with Err(None) exactly when some arm reduces to None; when every
arm reduces, the composite key is the references joined with a vertical bar
in declaration order, a hit in anon_mappings returns Ok of the configured
type and a miss returns Err(Some(key)); and for references free of the
separator character the key is order sensitive. -/
theorem claim_C3 (cfg : Config) (items1 items2 : List SchemaType)
    (rs : List TypeRef) (a b : TypeRef)
    (hnp : ∀ arm ∈ items1, intoReference arm ≠ .panicked)
    (hcol : collectRefs items2 = .ok (some rs))
    (hab : a.s ≠ b.s) (hpa : '|' ∉ a.s.data) (hpb : '|' ∉ b.s.data) :
    (cfg.lookup_anon items1 = .ok (.error none) ↔
      ∃ arm ∈ items1, intoReference arm = .ok none) ∧
    cfg.lookup_anon items2 =
      (match mapFind cfg.anonMappings (mkAnonKey rs) with
       | some v => .ok (.ok (TypeRef.new v))
       | none => .ok (.error (some (mkAnonKey rs)))) ∧
    mkAnonKey [a, b] ≠ mkAnonKey [b, a] := by
  refine ⟨?_, ?_, ?_⟩
  · rw [← collectRefs_none_iff items1 hnp]
    simp only [Config.lookup_anon]
    rcases hc : collectRefs items1 with _ | r
    · exact absurd hc (collectRefs_no_panic items1 hnp)
    · rcases r with _ | rs1
      · simp
      · constructor
        · intro h
          rcases hfind : mapFind cfg.anonMappings (mkAnonKey rs1) with _ | v <;>
            simp [hfind] at h
        · intro h; cases h
  · simp only [Config.lookup_anon, hcol]
  · intro heq
    have hkey1 : mkAnonKey [a, b] = a.s ++ "|" ++ b.s := rfl
    have hkey2 : mkAnonKey [b, a] = b.s ++ "|" ++ a.s := rfl
    rw [hkey1, hkey2] at heq
    have hd := congrArg String.data heq
    simp only [String.data_append, List.append_assoc,
      List.singleton_append] at hd
    exact hab (stringDataExt (eq_of_append_cons_eq _ _ _ _ hpa hpb hd))

/-- Concrete config with one anonymous mapping. -/
def cfgC3 : Config := ⟨"", [("A|B", "Chosen")], [], []⟩

/-- Witness for C3: an irreducible arm list, a reducible pair with a table
hit, and order sensitive keys. -/
theorem claim_C3_witness :
    (∀ arm ∈ [SchemaType.or []], intoReference arm ≠ .panicked) ∧
    collectRefs [SchemaType.reference "A", SchemaType.reference "B"] =
      .ok (some [TypeRef.new "A", TypeRef.new "B"]) ∧
    (TypeRef.new "A").s ≠ (TypeRef.new "B").s ∧
    ( '|' ∉ (TypeRef.new "A").s.data) ∧ ( '|' ∉ (TypeRef.new "B").s.data) ∧
    ((cfgC3.lookup_anon [SchemaType.or []] = .ok (.error none) ↔
        ∃ arm ∈ [SchemaType.or []], intoReference arm = .ok none) ∧
     cfgC3.lookup_anon [SchemaType.reference "A", SchemaType.reference "B"] =
       (match mapFind cfgC3.anonMappings
           (mkAnonKey [TypeRef.new "A", TypeRef.new "B"]) with
        | some v => .ok (.ok (TypeRef.new v))
        | none => .ok (.error (some
            (mkAnonKey [TypeRef.new "A", TypeRef.new "B"])))) ∧
     mkAnonKey [TypeRef.new "A", TypeRef.new "B"] ≠
       mkAnonKey [TypeRef.new "B", TypeRef.new "A"]) := by
  have hnp : ∀ arm ∈ [SchemaType.or []], intoReference arm ≠ .panicked := by
    intro arm harm
    rcases List.mem_singleton.mp harm with rfl
    intro h
    simp [intoReference] at h
  refine ⟨hnp, by simp [collectRefs, intoReference], by decide, by decide,
    by decide, claim_C3 cfgC3 [SchemaType.or []]
      [SchemaType.reference "A", SchemaType.reference "B"]
      [TypeRef.new "A", TypeRef.new "B"] (TypeRef.new "A") (TypeRef.new "B")
      hnp (by simp [collectRefs, intoReference]) (by decide) (by decide)
      (by decide)⟩

/-- C4: an Or union with more than one filtered arm, not of the optionality
shape, all of whose arms reduce, but whose composite key is absent from the
anon mappings, still translates successfully: the field receives the
placeholder TypeRef and the key is recorded into the anon missing set. -/
theorem claim_C4 (items : List SchemaType) (st : TransSt) (rs : List TypeRef)
    (hlen : 1 < (items.filter (fun it => !(isEmptyLit it))).length)
    (hopt : isOptShape (items.filter (fun it => !(isEmptyLit it))) = false)
    (hcol : collectRefs (items.filter (fun it => !(isEmptyLit it))) =
      .ok (some rs))
    (hmiss : mapFind st.config.anonMappings (mkAnonKey rs) = none) :
    translateType (.or items) st =
      .ok (some (TypeRef.new "todo!()"),
        { st with anonMissing := insertSorted (mkAnonKey rs) st.anonMissing }) ∧
    mkAnonKey rs ∈ insertSorted (mkAnonKey rs) st.anonMissing := by
  have h1 : ∀ ty1, items.filter (fun it => !(isEmptyLit it)) ≠ [ty1] := by
    intro ty1 hc
    rw [hc] at hlen
    simp at hlen
  rw [translateType_or_fallback h1 hopt]
  refine ⟨?_, insertSorted_mem _ _⟩
  simp only [orFallback, Config.lookup_anon, hcol, hmiss]

/-- Witness for C4 at Or([Reference A, Reference B]) with no mapping. -/
theorem claim_C4_witness :
    1 < ([SchemaType.reference "A", SchemaType.reference "B"].filter
      (fun it => !(isEmptyLit it))).length ∧
    isOptShape ([SchemaType.reference "A", SchemaType.reference "B"].filter
      (fun it => !(isEmptyLit it))) = false ∧
    collectRefs ([SchemaType.reference "A", SchemaType.reference "B"].filter
      (fun it => !(isEmptyLit it))) =
      .ok (some [TypeRef.new "A", TypeRef.new "B"]) ∧
    mapFind emptySt.config.anonMappings
      (mkAnonKey [TypeRef.new "A", TypeRef.new "B"]) = none ∧
    (translateType (.or [.reference "A", .reference "B"]) emptySt =
      .ok (some (TypeRef.new "todo!()"),
        { emptySt with anonMissing := (insertSorted
            (mkAnonKey [TypeRef.new "A", TypeRef.new "B"])
            emptySt.anonMissing) }) ∧
     mkAnonKey [TypeRef.new "A", TypeRef.new "B"] ∈
       insertSorted (mkAnonKey [TypeRef.new "A", TypeRef.new "B"])
         emptySt.anonMissing) := by
  refine ⟨by simp [isEmptyLit], by simp [isEmptyLit, isOptShape],
    by simp [collectRefs, intoReference, isEmptyLit], rfl,
    claim_C4 _ _ _ (by simp [isEmptyLit]) (by simp [isEmptyLit, isOptShape])
      (by simp [collectRefs, intoReference, isEmptyLit]) rfl⟩

/-- C5: a structure (symmetrically, an enumeration) whose config entry is
Checksum(h) produces no target item, and contributes a drift warning exactly
when its content fingerprint differs from h. -/
theorem claim_C5
    (s : Structure) (ss : List Structure) (st : TransSt) (c : String)
    (e : Enumeration) (es : List Enumeration) (st2 : TransSt) (c2 : String)
    (hs : (mapRemove st.config.structs s.name).1 = some (.checksum c))
    (he : (mapRemove st2.config.enums e.name).1 = some (.checksum c2)) :
    ((runStructs (s :: ss) st).items =
       (runStructs ss { st with config := { st.config with
         structs := (mapRemove st.config.structs s.name).2 } }).items ∧
     (runStructs (s :: ss) st).warnings =
       (if fingerprintStructure s = c then []
        else [Warning.hashMismatchStruct s.name c (fingerprintStructure s)]) ++
       (runStructs ss { st with config := { st.config with
         structs := (mapRemove st.config.structs s.name).2 } }).warnings) ∧
    ((runEnums (e :: es) st2).items =
       (runEnums es { st2 with config := { st2.config with
         enums := (mapRemove st2.config.enums e.name).2 } }).items ∧
     (runEnums (e :: es) st2).warnings =
       (if fingerprintEnumeration e = c2 then []
        else [Warning.hashMismatchEnum e.name c2 (fingerprintEnumeration e)]) ++
       (runEnums es { st2 with config := { st2.config with
         enums := (mapRemove st2.config.enums e.name).2 } }).warnings) := by
  constructor
  · rcases hmr : mapRemove st.config.structs s.name with ⟨o, m2⟩
    rw [hmr] at hs
    simp only at hs
    subst hs
    rw [runStructs_cons_cksum hmr]
    by_cases hf : fingerprintStructure s = c
    · simp [hf]
    · simp [hf]
  · rcases hmr : mapRemove st2.config.enums e.name with ⟨o, m2⟩
    rw [hmr] at he
    simp only at he
    subst he
    rw [runEnums_cons_cksum hmr]
    by_cases hf : fingerprintEnumeration e = c2
    · simp [hf]
    · simp [hf]

/-- A structure frozen behind a checksum entry. -/
def sC5 : Structure := ⟨"Foo", [], [], [], none, none, none, none, none⟩

/-- An enumeration frozen behind a checksum entry. -/
def eC5 : Enumeration :=
  ⟨"Sev", .base .string, [], false, none, none, false, none⟩

/-- Config for the C5 witness: both entities configured as Checksum. -/
def cfgC5 : Config :=
  ⟨"", [], [("Foo", .checksum "00000000")], [("Sev", .checksum "00000000")]⟩

/-- Witness for C5 at a concrete checksum configured structure and
enumeration. -/
theorem claim_C5_witness :
    (mapRemove (initSt cfgC5).config.structs sC5.name).1 =
      some (.checksum "00000000") ∧
    (mapRemove (initSt cfgC5).config.enums eC5.name).1 =
      some (.checksum "00000000") ∧
    (((runStructs [sC5] (initSt cfgC5)).items =
       (runStructs [] { initSt cfgC5 with config := { (initSt cfgC5).config with
         structs := (mapRemove (initSt cfgC5).config.structs sC5.name).2 } }).items ∧
     (runStructs [sC5] (initSt cfgC5)).warnings =
       (if fingerprintStructure sC5 = "00000000" then []
        else [Warning.hashMismatchStruct sC5.name "00000000"
          (fingerprintStructure sC5)]) ++
       (runStructs [] { initSt cfgC5 with config := { (initSt cfgC5).config with
         structs := (mapRemove (initSt cfgC5).config.structs sC5.name).2 } }).warnings) ∧
    ((runEnums [eC5] (initSt cfgC5)).items =
       (runEnums [] { initSt cfgC5 with config := { (initSt cfgC5).config with
         enums := (mapRemove (initSt cfgC5).config.enums eC5.name).2 } }).items ∧
     (runEnums [eC5] (initSt cfgC5)).warnings =
       (if fingerprintEnumeration eC5 = "00000000" then []
        else [Warning.hashMismatchEnum eC5.name "00000000"
          (fingerprintEnumeration eC5)]) ++
       (runEnums [] { initSt cfgC5 with config := { (initSt cfgC5).config with
         enums := (mapRemove (initSt cfgC5).config.enums eC5.name).2 } }).warnings)) := by
  refine ⟨rfl, rfl, claim_C5 sC5 [] (initSt cfgC5) "00000000" eC5 []
    (initSt cfgC5) "00000000" rfl rfl⟩

/-- When the structures loop completes, the meta model items are the struct
items followed by the enum items. -/
theorem runMetaModel_items_of_structs_ok (mm : MetaModel) (cfg : Config)
    (h : (runStructs mm.structures (initSt cfg)).abort = none) :
    (runMetaModel mm cfg).items =
      (runStructs mm.structures (initSt cfg)).items ++
      (runEnums mm.enumerations (runStructs mm.structures (initSt cfg)).st).items := by
  simp only [runMetaModel, h]
  split <;> rfl

/-- A fatal abort of the structures loop is what translate_schema returns. -/
theorem translate_schema_fatal_of_structs (mm : MetaModel) (cfg : Config)
    (c : ErrCause) (cs : List String)
    (h : (runStructs mm.structures (initSt cfg)).abort = some (.fatal c cs)) :
    translate_schema mm cfg = .fatal c cs := by
  simp only [translate_schema, runMetaModel, h]

/-- Length accounting between a filter and its complement. -/
theorem filter_length_split {α : Type} (p : α → Bool) : ∀ (l : List α),
    (l.filter (fun a => !(p a))).length = l.length - (l.filter p).length := by
  intro l
  induction l with
  | nil => rfl
  | cons a l ih =>
    have hle := List.length_filter_le p l
    rcases hp : p a with _ | _ <;>
      simp [List.filter_cons, hp, ih] <;> omega

/-- C7 (amended): a structure configured Generate(true), uniquely named, in a
run whose structures loop completes, yields exactly one struct item named
after it; the fields are the properties whose type does not translate to
None, in source property order, so the field count is the property count
minus the count of properties whose type translates to None. -/
theorem claim_C7 (mm : MetaModel) (cfg : Config) (ss1 ss2 : List Structure)
    (s : Structure)
    (hsplit : mm.structures = ss1 ++ s :: ss2)
    (hn1 : s.name ∉ ss1.map (fun x => x.name))
    (hn2 : s.name ∉ ss2.map (fun x => x.name))
    (hcfg : mapFind cfg.structs s.name = some (.generate true))
    (hok : (runStructs mm.structures (initSt cfg)).abort = none) :
    (runMetaModel mm cfg).items.countP (fun it => isStructNamed s.name it) = 1 ∧
    ∃ ts : TargetStruct, Item.struct ts ∈ (runMetaModel mm cfg).items ∧
      ts.name = s.name ∧
      ts.fields.map (fun f => f.name) =
        (s.properties.filter (fun p => !(dropsToNone p.type_))).map
          (fun p => p.name) ∧
      ts.fields.length =
        s.properties.length -
          (s.properties.filter (fun p => dropsToNone p.type_)).length := by
  have hok1 : (runStructs ss1 (initSt cfg)).abort = none := by
    rcases habs : (runStructs ss1 (initSt cfg)).abort with _ | a
    · rfl
    · rw [hsplit, runStructs_append_abort ss1 (s :: ss2) (initSt cfg) a habs]
        at hok
      rw [habs] at hok
      cases hok
  have hfindA : mapFind (runStructs ss1 (initSt cfg)).st.config.structs s.name =
      some (.generate true) := by
    rw [runStructs_preserves_find ss1 (initSt cfg) s.name hn1]
    exact hcfg
  have hmrfst : (mapRemove (runStructs ss1 (initSt cfg)).st.config.structs
      s.name).1 = some (.generate true) := by
    rw [mapRemove_fst]
    exact hfindA
  rcases hmr : mapRemove (runStructs ss1 (initSt cfg)).st.config.structs s.name
    with ⟨o, m2⟩
  rw [hmr] at hmrfst
  simp only at hmrfst
  subst hmrfst
  have hw := runStructs_append ss1 (s :: ss2) (initSt cfg) hok1
  rcases hts : translateStructure s { (runStructs ss1 (initSt cfg)).st with
      config := { (runStructs ss1 (initSt cfg)).st.config with structs := m2 } }
    with _ | ⟨c, cs⟩ | ⟨⟨ts, st2⟩⟩
  · rw [hsplit, hw, runStructs_cons_gen_panic hmr hts ss2] at hok
    cases hok
  · rw [hsplit, hw, runStructs_cons_gen_fatal hmr hts ss2] at hok
    cases hok
  · have hstep := runStructs_cons_gen_ok hmr hts ss2
    have hitems : (runStructs mm.structures (initSt cfg)).items =
        (runStructs ss1 (initSt cfg)).items ++
        (Item.struct ts :: (runStructs ss2 st2).items) := by
      rw [hsplit, hw, hstep]
    have hinv := translateStructure_ok_inv _ _ _ _ hts
    have hmmitems := runMetaModel_items_of_structs_ok mm cfg hok
    constructor
    · rw [hmmitems, hitems]
      rw [List.countP_append, List.countP_append, List.countP_cons]
      rw [runStructs_countP_zero ss1 (initSt cfg) s.name hn1]
      rw [runStructs_countP_zero ss2 st2 s.name hn2]
      rw [runEnums_countP_zero]
      simp [isStructNamed, hinv.1]
    · refine ⟨ts, ?_, hinv.1, hinv.2.1, ?_⟩
      · rw [hmmitems, hitems]
        refine List.mem_append.mpr (Or.inl ?_)
        refine List.mem_append.mpr (Or.inr ?_)
        exact List.mem_cons_self _ _
      · rw [hinv.2.2.1, filter_length_split]

/-- A structure whose single property type is Array(StringLiteral): the type
translates to None so the field is dropped, yet the property is not
StringLiteral typed at the top level. -/
def sC7 : Structure :=
  ⟨"Foo", [⟨"x", .array (.stringLiteral "k"), none, none, none, none, none,
    none⟩], [], [], none, none, none, none, none⟩

/-- Meta model of the C7 counterexample. -/
def mmC7 : MetaModel := ⟨[sC7], []⟩

/-- Config of the C7 counterexample: Foo is generated. -/
def cfgC7 : Config := ⟨"", [], [("Foo", .generate true)], []⟩

/-- The struct item the C7 counterexample produces: no fields at all. -/
def tsC7 : TargetStruct := ⟨"Foo", [], [], none, none, .unknown⟩

/-- Holds of a type that is a StringLiteral at the top level. -/
def isStringLitType : SchemaType → Bool
  | .stringLiteral _ => true
  | _ => false

/-- C7 counterexample: the emitted struct has zero fields although the claim
says the field count is the property count (one) minus the count of
StringLiteral typed properties (zero, since the property type is an Array of
a StringLiteral, not a StringLiteral). -/
theorem claim_C7_counterexample :
    (runMetaModel mmC7 cfgC7).items = [Item.struct tsC7] ∧
    tsC7.fields.length = 0 ∧
    sC7.properties.length = 1 ∧
    (sC7.properties.filter (fun p => isStringLitType p.type_)).length = 0 := by
  refine ⟨?_, rfl, rfl, rfl⟩
  have hty : ∀ st : TransSt, translateType (.array (.stringLiteral "k")) st =
      .ok (none, st) := by
    intro st
    simp [translateType]
  have hrefs : unwrapRefs (sC7.extends_ ++ sC7.mixins) = .ok [] := by
    simp [sC7, unwrapRefs]
  have hs : ∀ st : TransSt, translateStructure sC7 st = .ok (tsC7, st) := by
    intro st
    simp only [translateStructure, hrefs]
    have hprops : translateProps sC7.properties st = .ok ([], st) := by
      simp only [sC7, translateProps, Property.type_, Property.since]
      rw [hty st]
    rw [hprops]
    simp [sC7, Version.parse, tsC7]
  have hmr : mapRemove (initSt cfgC7).config.structs sC7.name =
      (some (.generate true), []) := rfl
  have hrun := runStructs_cons_gen_ok hmr (hs _) []
  have hitems : (runStructs mmC7.structures (initSt cfgC7)).items =
      [Item.struct tsC7] := by
    rw [show mmC7.structures = [sC7] from rfl, hrun]
    rfl
  have habort : (runStructs mmC7.structures (initSt cfgC7)).abort = none := by
    rw [show mmC7.structures = [sC7] from rfl, hrun]
    rfl
  rw [runMetaModel_items_of_structs_ok mmC7 cfgC7 habort, hitems]
  rfl

/-- Structure for the C7 witness: one generated structure with no
properties. -/
def sW7 : Structure := ⟨"Bar", [], [], [], none, none, none, none, none⟩

/-- Meta model for the C7 witness. -/
def mmW7 : MetaModel := ⟨[sW7], []⟩

/-- Config for the C7 witness. -/
def cfgW7 : Config := ⟨"", [], [("Bar", .generate true)], []⟩

/-- The struct item the C7 witness produces. -/
def tsW7 : TargetStruct := ⟨"Bar", [], [], none, none, .unknown⟩

/-- Witness for C7 at a concrete generated structure. -/
theorem claim_C7_witness :
    mmW7.structures = [] ++ sW7 :: [] ∧
    sW7.name ∉ ([] : List Structure).map (fun x => x.name) ∧
    mapFind cfgW7.structs sW7.name = some (.generate true) ∧
    (runStructs mmW7.structures (initSt cfgW7)).abort = none ∧
    ((runMetaModel mmW7 cfgW7).items.countP
        (fun it => isStructNamed sW7.name it) = 1 ∧
      ∃ ts : TargetStruct, Item.struct ts ∈ (runMetaModel mmW7 cfgW7).items ∧
        ts.name = sW7.name ∧
        ts.fields.map (fun f => f.name) =
          (sW7.properties.filter (fun p => !(dropsToNone p.type_))).map
            (fun p => p.name) ∧
        ts.fields.length =
          sW7.properties.length -
            (sW7.properties.filter (fun p => dropsToNone p.type_)).length) := by
  have hrefs : unwrapRefs (sW7.extends_ ++ sW7.mixins) = .ok [] := by
    simp [sW7, unwrapRefs]
  have hs : ∀ st : TransSt, translateStructure sW7 st = .ok (tsW7, st) := by
    intro st
    simp only [translateStructure, hrefs]
    have hprops : translateProps sW7.properties st = .ok ([], st) := rfl
    rw [hprops]
    simp [sW7, Version.parse, tsW7]
  have hmr : mapRemove (initSt cfgW7).config.structs sW7.name =
      (some (.generate true), []) := rfl
  have hrun := runStructs_cons_gen_ok hmr (hs _) []
  have habort : (runStructs mmW7.structures (initSt cfgW7)).abort = none := by
    rw [show mmW7.structures = [sW7] from rfl, hrun]
    rfl
  refine ⟨rfl, by simp, rfl, habort,
    claim_C7 mmW7 cfgW7 [] [] sW7 rfl (by simp) (by simp) rfl habort⟩

/-- C6 (amended): in a must succeed position a Tuple, an inline literal
structure, an IntegerLiteral or a BooleanLiteral aborts the pass with an
error contextualized by the property and structure being translated, and an
Or union reaching the anonymous union lookup with an irreducible arm aborts
the same way; a Base RegExp instead aborts the pass by panicking, without the
contextualized error.  A fatal structure translation aborts the whole
translate_schema run with the structure name appended as context, and the
caller receives the error, not the item list. -/
theorem claim_C6
    (its : List SchemaType) (v : StructureLiteral) (iv : Int) (bv : Bool)
    (st st2 st3 st4 : TransSt)
    (items2 : List SchemaType)
    (p : Property) (ps : List Property) (c2 : ErrCause) (cs2 : List String)
    (s2 : Structure) (refs : List TypeRef) (c3 : ErrCause) (cs3 : List String)
    (mm : MetaModel) (cfg : Config) (ss1 ss2 : List Structure) (s : Structure)
    (b : Bool) (c : ErrCause) (cs : List String)
    (hol : (items2.filter (fun it => !(isEmptyLit it))).length ≠ 1)
    (hoo : isOptShape (items2.filter (fun it => !(isEmptyLit it))) = false)
    (hoc : collectRefs (items2.filter (fun it => !(isEmptyLit it))) = .ok none)
    (hpf : translateType p.type_ st3 = .fatal c2 cs2)
    (hrefs : unwrapRefs (s2.extends_ ++ s2.mixins) = .ok refs)
    (hpsf : translateProps s2.properties st4 = .fatal c3 cs3)
    (hsplit : mm.structures = ss1 ++ s :: ss2)
    (habort : (runStructs ss1 (initSt cfg)).abort = none)
    (hcfg : (mapRemove (runStructs ss1 (initSt cfg)).st.config.structs
      s.name).1 = some (.generate b))
    (hsf : translateStructure s { (runStructs ss1 (initSt cfg)).st with
      config := { (runStructs ss1 (initSt cfg)).st.config with structs :=
        (mapRemove (runStructs ss1 (initSt cfg)).st.config.structs
          s.name).2 } } = .fatal c cs) :
    translateType (.tuple its) st = .fatal .tuplesUnsupported [] ∧
    translateType (.literal v) st = .fatal .literalUnsupported [] ∧
    translateType (.integerLiteral iv) st = .fatal .integerLiteralUnsupported [] ∧
    translateType (.booleanLiteral bv) st = .fatal .booleanLiteralUnsupported [] ∧
    translateType (.base .regExp) st = .panicked ∧
    translateType (.or items2) st2 = .fatal .invalidAnonItems [] ∧
    translateProps (p :: ps) st3 =
      .fatal c2 (cs2 ++ ["while translating property: " ++ p.name]) ∧
    translateStructure s2 st4 = .fatal c3 cs3 ∧
    translate_schema mm cfg =
      .fatal c (cs ++ ["translating structure " ++ s.name]) := by
  refine ⟨by simp [translateType], by simp [translateType],
    by simp [translateType], by simp [translateType], by simp [translateType],
    ?_, ?_, ?_, ?_⟩
  · have h1 : ∀ ty1, items2.filter (fun it => !(isEmptyLit it)) ≠ [ty1] := by
      intro ty1 hcn
      rw [hcn] at hol
      simp at hol
    rw [translateType_or_fallback h1 hoo]
    simp only [orFallback, Config.lookup_anon, hoc]
  · simp only [translateProps, hpf]
  · simp only [translateStructure, hrefs, hpsf]
  · rcases hmr : mapRemove (runStructs ss1 (initSt cfg)).st.config.structs
      s.name with ⟨o, m2⟩
    rw [hmr] at hcfg hsf
    simp only at hcfg
    subst hcfg
    have hstep := runStructs_cons_gen_fatal hmr hsf ss2
    apply translate_schema_fatal_of_structs
    rw [hsplit, runStructs_append ss1 (s :: ss2) (initSt cfg) habort, hstep]

/-- A structure with a RegExp typed property, a fatal shape that panics. -/
def sC6 : Structure :=
  ⟨"Foo", [⟨"x", .base .regExp, none, none, none, none, none, none⟩],
   [], [], none, none, none, none, none⟩

/-- Meta model of the C6 counterexample. -/
def mmC6 : MetaModel := ⟨[sC6], []⟩

/-- Config of the C6 counterexample: Foo is generated. -/
def cfgC6 : Config := ⟨"", [], [("Foo", .generate true)], []⟩

/-- C6 counterexample: a generated structure with a Base RegExp property
makes the whole pass panic, not stop with a contextualized error as the
claim states. -/
theorem claim_C6_counterexample : translate_schema mmC6 cfgC6 = .panicked := by
  have hty : ∀ st : TransSt, translateType (.base .regExp) st = .panicked := by
    intro st
    simp [translateType]
  have hs : ∀ st : TransSt, translateStructure sC6 st = .panicked := by
    intro st
    have hrefs : unwrapRefs (sC6.extends_ ++ sC6.mixins) = .ok [] := by
      simp [sC6, unwrapRefs]
    simp only [translateStructure, hrefs]
    have hprops : translateProps sC6.properties st = .panicked := by
      simp only [sC6, translateProps, Property.type_]
      rw [hty st]
    rw [hprops]
  have hmr : mapRemove (initSt cfgC6).config.structs sC6.name =
      (some (.generate true), []) := rfl
  have hrun := runStructs_cons_gen_panic hmr (hs _) []
  have habort : (runStructs mmC6.structures (initSt cfgC6)).abort =
      some .panicked := by
    rw [show mmC6.structures = [sC6] from rfl, hrun]
  simp only [translate_schema, runMetaModel, habort]

/-- Structure for the C6 witness: a generated structure whose property is a
Tuple, a fatal shape that errors with context. -/
def sW6 : Structure :=
  ⟨"Baz", [⟨"y", .tuple [], none, none, none, none, none, none⟩],
   [], [], none, none, none, none, none⟩

/-- Meta model for the C6 witness. -/
def mmW6 : MetaModel := ⟨[sW6], []⟩

/-- Config for the C6 witness. -/
def cfgW6 : Config := ⟨"", [], [("Baz", .generate true)], []⟩

/-- Property used by the C6 witness. -/
def pW6 : Property := ⟨"y", .tuple [], none, none, none, none, none, none⟩

/-- Witness for C6 at the concrete fatal shapes. -/
theorem claim_C6_witness :
    (([SchemaType.base .null, SchemaType.base .decimal].filter
      (fun it => !(isEmptyLit it))).length ≠ 1) ∧
    isOptShape ([SchemaType.base .null, SchemaType.base .decimal].filter
      (fun it => !(isEmptyLit it))) = false ∧
    collectRefs ([SchemaType.base .null, SchemaType.base .decimal].filter
      (fun it => !(isEmptyLit it))) = .ok none ∧
    translateType pW6.type_ emptySt = .fatal .tuplesUnsupported [] ∧
    unwrapRefs (sW6.extends_ ++ sW6.mixins) = .ok [] ∧
    translateProps sW6.properties emptySt =
      .fatal .tuplesUnsupported ["while translating property: y"] ∧
    mmW6.structures = [] ++ sW6 :: [] ∧
    (runStructs [] (initSt cfgW6)).abort = none ∧
    (mapRemove (runStructs [] (initSt cfgW6)).st.config.structs sW6.name).1 =
      some (.generate true) ∧
    (translateType (.tuple []) emptySt = .fatal .tuplesUnsupported [] ∧
     translateType (.literal ⟨[], none, none, none, false, none⟩) emptySt =
       .fatal .literalUnsupported [] ∧
     translateType (.integerLiteral 0) emptySt =
       .fatal .integerLiteralUnsupported [] ∧
     translateType (.booleanLiteral false) emptySt =
       .fatal .booleanLiteralUnsupported [] ∧
     translateType (.base .regExp) emptySt = .panicked ∧
     translateType (.or [SchemaType.base .null, SchemaType.base .decimal])
       emptySt = .fatal .invalidAnonItems [] ∧
     translateProps (pW6 :: []) emptySt =
       .fatal .tuplesUnsupported
         ([] ++ ["while translating property: " ++ pW6.name]) ∧
     translateStructure sW6 emptySt =
       .fatal .tuplesUnsupported ["while translating property: y"] ∧
     translate_schema mmW6 cfgW6 =
       .fatal .tuplesUnsupported
         (["while translating property: y"] ++
           ["translating structure " ++ sW6.name])) := by
  have hty : translateType pW6.type_ emptySt = .fatal .tuplesUnsupported [] := by
    simp [pW6, Property.type_, translateType]
  have hprops : translateProps sW6.properties emptySt =
      .fatal .tuplesUnsupported ["while translating property: y"] := by
    simp only [sW6, translateProps, Property.type_, Property.name]
    have h2 : translateType (SchemaType.tuple []) emptySt =
        .fatal .tuplesUnsupported [] := by simp [translateType]
    rw [h2]
    rfl
  have hrefs : unwrapRefs (sW6.extends_ ++ sW6.mixins) = .ok [] := by
    simp [sW6, unwrapRefs]
  have hpropsGen : ∀ st : TransSt, translateProps sW6.properties st =
      .fatal .tuplesUnsupported ["while translating property: y"] := by
    intro st
    simp only [sW6, translateProps, Property.type_, Property.name]
    have h2 : translateType (SchemaType.tuple []) st =
        .fatal .tuplesUnsupported [] := by simp [translateType]
    rw [h2]
    rfl
  have hsfGen : ∀ st : TransSt, translateStructure sW6 st =
      .fatal .tuplesUnsupported ["while translating property: y"] := by
    intro st
    simp only [translateStructure, hrefs, hpropsGen st]
  refine ⟨by simp [isEmptyLit], by simp [isEmptyLit, isOptShape],
    by simp [isEmptyLit, collectRefs, intoReference], hty, hrefs, hprops,
    rfl, rfl, rfl,
    claim_C6 [] ⟨[], none, none, none, false, none⟩ 0 false emptySt emptySt
      emptySt emptySt [SchemaType.base .null, SchemaType.base .decimal]
      pW6 [] .tuplesUnsupported []
      sW6 [] .tuplesUnsupported ["while translating property: y"]
      mmW6 cfgW6 [] [] sW6 true .tuplesUnsupported
      ["while translating property: y"]
      (by simp [isEmptyLit]) (by simp [isEmptyLit, isOptShape])
      (by simp [isEmptyLit, collectRefs, intoReference]) hty hrefs hprops
      rfl rfl rfl (hsfGen _)⟩

end Xtask
